import Mathlib

/-!
Verification of the layout / classification / grouping engine of the
md2electraone converter (src/md2electraone/main.py and
src/md2electraone/json2md.py), as a shallow embedding in Lean.

Python integers are modelled as `Int` (they are unbounded); list/dict
state is modelled as explicit lists and insertion-ordered association
lists; optional values as `Option`.  Python truthiness of optional
strings (where both `None` and `""` are falsy) is modelled by
`optStrVal`.
-/

namespace MdE1

/-- Python truthiness of an optional string: `None` and `""` are falsy. -/
def optStrVal (o : Option String) : Option String :=
  match o with
  | some s => if s == "" then none else some s
  | none => none

/-- Abstract control description, from `controlspec.py` (`ControlSpec`).
`cc` is a single parameter number or a list (envelope controls). -/
inductive CCField where
  | single (n : Int)
  | multi (l : List Int)
deriving DecidableEq, Repr

/-- The `ControlSpec` dataclass from `controlspec.py`.  The Python field
`section` is `sect` here (`section` is a Lean keyword). -/
structure ControlSpec where
  sect : String
  cc : CCField
  label : String
  min_val : Int
  max_val : Int
  choices : List (Int × String)
  description : String
  color : Option String := none
  is_blank : Bool := false
  envelope_type : Option String := none
  msg_type : String := "C"
  default_value : Option Int := none
  mode : Option String := none
  is_group : Bool := false
  group_size : Int := 0
  group_id : Option String := none
  device_id : Option Nat := none
deriving DecidableEq, Repr

/-- Grid layout configuration, from `compute_grid_bounds` in `main.py`. -/
structure Grid where
  cols : Nat
  rows : Nat
  top_offset : Int
  left_offset : Int
  cell_w : Int
  cell_h : Int
  xpadding : Int
  ypadding : Int
deriving DecidableEq, Repr

/-- The default layout configuration produced by `compute_grid_bounds`
when the metadata map carries no `electra` overrides. -/
def defaultGrid : Grid :=
  { cols := 6, rows := 6, top_offset := 28, left_offset := 20
  , cell_w := 146, cell_h := 56, xpadding := 21, ypadding := 34 }

/-- Bounding box `[x, y, w, h]` in page pixel coordinates. -/
structure Bounds where
  x : Int
  y : Int
  w : Int
  h : Int
deriving DecidableEq, Repr

/-- The `bounds_for_index` from `main.py` (lines 132-145): the cell of the
control at position index `idx` in the page grid. -/
def bounds_for_index (idx : Nat) (grid : Grid) : Bounds :=
  let r := idx / grid.cols
  let c := idx % grid.cols
  { x := grid.left_offset + (c : Int) * (grid.cell_w + grid.xpadding)
  , y := grid.top_offset + (r : Int) * (grid.cell_h + grid.ypadding)
  , w := grid.cell_w
  , h := grid.cell_h }

/-- Page capacity, `page_cap = cols * rows` in `generate_preset`. -/
def pageCap (g : Grid) : Nat := g.cols * g.rows

/-- Unordered equality of the two-element label sets used by
`is_toggle` (Python compares `set(labels)` with two-element pattern
sets whose members are distinct). -/
def sameSet2 (a b p q : String) : Bool :=
  (a == p && b == q) || (a == q && b == p)

/-- Python's `str.lower()` on the label alphabet (character-wise
lowering over the string's characters). -/
def strLower (s : String) : String := ⟨s.data.map Char.toLower⟩

/-- ASCII whitespace test for `strTrim`. -/
def isWS (c : Char) : Bool := c == ' ' || c == '\t' || c == '\n' || c == '\r'

/-- Python's `str.strip()`: drop whitespace at both ends. -/
def strTrim (s : String) : String :=
  ⟨((s.data.dropWhile isWS).reverse.dropWhile isWS).reverse⟩

/-- The `is_toggle` from `main.py`: exactly two choices whose lowered,
trimmed labels form one of the known on/off-style pairs. -/
def is_toggle (choices : List (Int × String)) : Bool :=
  match choices with
  | [c1, c2] =>
    let a := strTrim (strLower c1.2)
    let b := strTrim (strLower c2.2)
    sameSet2 a b "on" "off" || sameSet2 a b "play" "pause" ||
    sameSet2 a b "enable" "disable" || sameSet2 a b "enabled" "disabled" ||
    sameSet2 a b "yes" "no" || sameSet2 a b "true" "false"
  | _ => false

/-- The `control_type` from `main.py`.  A truthy `envelope_type` wins,
then two-choice toggles are pads, other choice lists are lists, and
everything else is a fader. -/
def control_type (spec : ControlSpec) : String :=
  match optStrVal spec.envelope_type with
  | some et => et.toLower
  | none =>
    if !spec.choices.isEmpty then
      if is_toggle spec.choices then "pad" else "list"
    else "fader"

/-- The `control_mode` from `main.py`: an explicitly given mode wins
(Python checks `is not None`, so even `""` is returned verbatim). -/
def control_mode (spec : ControlSpec) (ctype : String) : String :=
  match spec.mode with
  | some m => m
  | none =>
    if ctype == "pad" then "toggle"
    else if ctype == "list" then "default"
    else if ctype == "adsr" || ctype == "adr" then "default"
    else "unipolar"

/-- The `message_type` from `main.py` (lines 220-241). -/
def message_type (spec : ControlSpec) : String :=
  if spec.msg_type == "N" then "nrpn"
  else if spec.msg_type == "P" then "program"
  else if spec.msg_type == "S" then "sysex"
  else if spec.max_val > 127 then "cc14"
  else "cc7"

/-- The `message_max_value` from `main.py` (lines 243-257); the `spec`
argument is unused in the source as well. -/
def message_max_value (_spec : ControlSpec) (msg_type : String) : Int :=
  if msg_type == "nrpn" then 16383
  else if msg_type == "cc14" then 16383
  else if msg_type == "program" then 127
  else 127

/-- Lexicographic order on `(value, label)` pairs as used by Python's
`sorted` on tuples in the pad branch of `generate_preset`. -/
def pairLe (a b : Int × String) : Bool :=
  a.1 < b.1 || (a.1 == b.1 && !(compare a.2 b.2 == Ordering.gt))

/-- Insert one pair into a `pairLe`-sorted list. -/
def insertPair (a : Int × String) : List (Int × String) → List (Int × String)
  | [] => [a]
  | b :: t => if pairLe a b then a :: b :: t else b :: insertPair a t

/-- The `sorted` on a list of `(value, label)` pairs. -/
def sortPairs : List (Int × String) → List (Int × String)
  | [] => []
  | a :: t => insertPair a (sortPairs t)

/-- The `format_choices` from `json2md.py` (lines 407-424) uses this
indexed scan for `is_sequential`: entry `i` must carry value
`first_val + i`. -/
def isSeqFrom (v0 : Int) : Int → List (Int × String) → Bool
  | _, [] => true
  | i, c :: t => (c.1 == v0 + i) && isSeqFrom v0 (i + 1) t

/-- The `format_choices` from `json2md.py` (lines 407-424): compact bare
labels only for sequential lists of more than two entries starting at
0 or 1; otherwise explicit `value=label` pairs. -/
def format_choices (choices : List (Int × String)) : String :=
  match choices with
  | [] => ""
  | (v0, _) :: _ =>
    let is_sequential := isSeqFrom v0 0 choices
    if is_sequential && (v0 == 0 || v0 == 1) && choices.length > 2 then
      String.intercalate ", " (choices.map (fun c => c.2))
    else
      String.intercalate ", " (choices.map (fun c => s!"{c.1}={c.2}"))

/-- Generic lookup in an insertion-ordered association list (models a
Python `dict` read). -/
def alookup {α β : Type} [BEq α] : List (α × β) → α → Option β
  | [], _ => none
  | (k0, v) :: t, k => if k0 == k then some v else alookup t k

/-- An overlay: deduplicated `(value, label)` table, from the
`overlays.append` in `overlay_id_for` in `main.py`. -/
structure Overlay where
  oid : Nat
  items : List (Int × String)
deriving DecidableEq, Repr

/-- The interning state read and written by `overlay_id_for`
(`overlays`, `overlay_key_to_id`, `next_overlay_id` in
`generate_preset`). -/
structure OverlaySt where
  overlays : List Overlay
  keyToId : List (List (Int × String) × Nat)
  nextId : Nat
deriving DecidableEq, Repr

/-- Initial interning state of one conversion run. -/
def overlayInit : OverlaySt := { overlays := [], keyToId := [], nextId := 1 }

/-- The `overlay_id_for` from `main.py` (lines 309-321): reuse the id of an
identical ordered choice list, otherwise append a fresh overlay under
the next counter value. -/
def overlay_id_for (st : OverlaySt) (choices : List (Int × String)) : Nat × OverlaySt :=
  match alookup st.keyToId choices with
  | some oid => (oid, st)
  | none =>
    let oid := st.nextId
    (oid,
      { overlays := st.overlays ++ [{ oid := oid, items := choices }]
      , keyToId := st.keyToId ++ [(choices, oid)]
      , nextId := st.nextId + 1 })

/-- Run `overlay_id_for` over a whole sequence of choice lists,
returning the assigned ids in order together with the final state. -/
def runOverlayIds (st : OverlaySt) : List (List (Int × String)) → List Nat × OverlaySt
  | [] => ([], st)
  | k :: t =>
    let p := overlay_id_for st k
    let q := runOverlayIds p.2 t
    (p.1 :: q.1, q.2)

/-- Message descriptor of an emitted value (the `message_obj` dicts of
`generate_preset`); fields absent from a given branch stay `none`. -/
structure EMessage where
  deviceId : Nat
  mtype : String
  parameterNumber : Option CCField := none
  mmin : Option Int := none
  mmax : Option Int := none
  offValue : Option Int := none
  onValue : Option Int := none
deriving DecidableEq, Repr

/-- One emitted value entry (`value_obj` / `val` dicts). -/
structure EValue where
  vid : String
  vmin : Option Int := none
  vmax : Option Int := none
  defaultValue : Option Int := none
  overlayId : Option Nat := none
  message : EMessage
deriving DecidableEq, Repr

/-- One emitted control (`control_obj` dicts in `generate_preset`).
The envelope `inputs` array (fixed pot slots) is elided: no claim
below mentions it. -/
structure EControl where
  cid : Nat
  ctype : String
  name : String
  bounds : Bounds
  pageId : Nat
  values : List EValue
  mode : Option String := none
  variant : Option String := none
  color : Option String := none
  visible : Option Bool := none
deriving DecidableEq, Repr

/-- One emitted page (`defaultControlSetId`, a constant 1, elided). -/
structure EPage where
  pid : Nat
  name : String
deriving DecidableEq, Repr

/-- One emitted device entry of the `devices` array. -/
structure EDevice where
  did : Nat
  dname : String
deriving DecidableEq, Repr

/-- One emitted group (`group_obj` dicts in `generate_preset`). -/
structure EGroup where
  gid : Nat
  pageId : Nat
  name : String
  bounds : Bounds
  color : Option String := none
  variant : Option String := none
deriving DecidableEq, Repr

/-- Mutable state threaded through the per-spec placement loop of
`generate_preset` (lines 345-414 and the three emission branches).
`group_controls` and `group_defs` are the two insertion-ordered dicts
keyed by `(page_id, internal_group_name)`. -/
structure GenSt where
  position_idx : Nat
  current_group_name : Option String
  current_group_remaining : Nat
  next_control_id : Nat
  controls : List EControl
  group_controls : List ((Nat × String) × List Nat)
  group_defs : List ((Nat × String) × (String × Option String))
  ovst : OverlaySt
deriving Repr

/-- The `group_controls[key].append(v)`, creating the entry if missing
(insertion order preserved, as for a Python dict). -/
def dictInsertAppend (m : List ((Nat × String) × List Nat)) (k : Nat × String) (v : Nat) :
    List ((Nat × String) × List Nat) :=
  match m with
  | [] => [(k, [v])]
  | (k0, l) :: t =>
    if k0 == k then (k0, l ++ [v]) :: t else (k0, l) :: dictInsertAppend t k v

/-- The `group_defs[key] = value` (overwrite or insert at the end). -/
def dictSet (m : List ((Nat × String) × (String × Option String))) (k : Nat × String)
    (v : String × Option String) : List ((Nat × String) × (String × Option String)) :=
  match m with
  | [] => [(k, v)]
  | (k0, v0) :: t =>
    if k0 == k then (k0, v) :: t else (k0, v0) :: dictSet t k v

/-- The `device_index_to_id.get(spec.device_id, 1) if spec.device_id else 1`
(`0` and `None` are both falsy in Python). -/
def device_id_for (deviceMap : List (Nat × Nat)) (d : Option Nat) : Nat :=
  match d with
  | some n => if n == 0 then 1 else (alookup deviceMap n).getD 1
  | none => 1

/-- Component names of an envelope control type. -/
def envComponents (ctype : String) : List String :=
  if ctype == "adsr" then ["attack", "decay", "sustain", "release"]
  else ["attack", "decay", "release"]

/-- The group-membership bookkeeping shared verbatim by the three
emission branches of `generate_preset` (e.g. lines 640-655): an
explicit truthy `group_id` tag wins; otherwise an armed span
(`current_group_remaining > 0`) assigns the control to the current
group and is decremented; a falsy resolved name records nothing. -/
def assignGroup (pageId : Nat) (spec : ControlSpec) (ctrlId : Nat) (st : GenSt) : GenSt :=
  match optStrVal spec.group_id with
  | some g =>
    { st with group_controls := dictInsertAppend st.group_controls (pageId, g) ctrlId }
  | none =>
    if st.current_group_remaining > 0 then
      let st1 := { st with current_group_remaining := st.current_group_remaining - 1 }
      match optStrVal st.current_group_name with
      | some g =>
        { st1 with group_controls := dictInsertAppend st1.group_controls (pageId, g) ctrlId }
      | none => st1
    else st

/-- One iteration of the per-spec loop of `generate_preset`
(lines 393-658): group-header rows, blank rows, and the envelope /
pad / list-fader emission branches. -/
def placeSpec (grid : Grid) (deviceMap : List (Nat × Nat)) (pageId : Nat)
    (st : GenSt) (spec : ControlSpec) : GenSt :=
  if spec.is_group then
    let internal := (optStrVal spec.group_id).getD spec.label
    let st := { st with
      group_defs := dictSet st.group_defs (pageId, internal) (spec.label, spec.color) }
    if spec.group_size > 0 then
      { st with current_group_name := some internal
              , current_group_remaining := spec.group_size.toNat }
    else st
  else if spec.is_blank then
    { st with position_idx := st.position_idx + 1 }
  else
    let ctype := control_type spec
    if ctype == "adsr" || ctype == "adr" then
      match spec.cc with
      | CCField.single _ => { st with position_idx := st.position_idx + 1 }
      | CCField.multi ccs =>
        let components := envComponents ctype
        if ccs.length != components.length then
          { st with position_idx := st.position_idx + 1 }
        else
          let msg_type := message_type spec
          let msg_max := message_max_value spec msg_type
          let devId := device_id_for deviceMap spec.device_id
          let values := (components.zip ccs).map (fun p =>
            let msg : EMessage :=
              if msg_type == "program" then
                { deviceId := devId, mtype := msg_type
                , mmin := some spec.min_val, mmax := some spec.max_val }
              else
                { deviceId := devId, mtype := msg_type
                , parameterNumber := some (CCField.single p.2)
                , mmin := some 0, mmax := some msg_max }
            ({ vid := p.1, vmin := some spec.min_val, vmax := some spec.max_val
             , defaultValue := spec.default_value, message := msg } : EValue))
          let ctrl : EControl :=
            { cid := st.next_control_id, ctype := ctype, name := spec.label
            , bounds := bounds_for_index st.position_idx grid
            , pageId := pageId, values := values, color := spec.color }
          let st := { st with controls := st.controls ++ [ctrl] }
          let st := assignGroup pageId spec st.next_control_id st
          { st with next_control_id := st.next_control_id + 1
                  , position_idx := st.position_idx + 1 }
    else if ctype == "pad" then
      let vals := sortPairs spec.choices
      let off_val := (vals.getD 0 (0, "")).1
      let on_val := (vals.getD 1 (0, "")).1
      let msg_type := message_type spec
      let devId := device_id_for deviceMap spec.device_id
      let msg : EMessage :=
        { deviceId := devId, mtype := msg_type
        , offValue := some off_val, onValue := some on_val
        , parameterNumber := if msg_type == "program" then none else some spec.cc }
      let val : EValue := { vid := "value", message := msg }
      let ctrl : EControl :=
        { cid := st.next_control_id, ctype := ctype, name := spec.label
        , bounds := bounds_for_index st.position_idx grid
        , pageId := pageId, values := [val]
        , mode := some (control_mode spec ctype), visible := some true
        , color := spec.color }
      let st := { st with controls := st.controls ++ [ctrl] }
      let st := assignGroup pageId spec st.next_control_id st
      { st with next_control_id := st.next_control_id + 1
              , position_idx := st.position_idx + 1 }
    else
      let msg_type := message_type spec
      let msg_max := message_max_value spec msg_type
      let devId := device_id_for deviceMap spec.device_id
      let msg : EMessage :=
        if msg_type == "program" then
          { deviceId := devId, mtype := msg_type
          , mmin := some spec.min_val, mmax := some spec.max_val }
        else
          { deviceId := devId, mtype := msg_type
          , parameterNumber := some spec.cc
          , mmin := some 0, mmax := some msg_max }
      let ov : Option Nat × OverlaySt :=
        if !spec.choices.isEmpty then
          let p := overlay_id_for st.ovst spec.choices
          (some p.1, p.2)
        else (none, st.ovst)
      let val : EValue :=
        { vid := "value", vmin := some spec.min_val, vmax := some spec.max_val
        , defaultValue := spec.default_value, overlayId := ov.1, message := msg }
      let ctrl : EControl :=
        { cid := st.next_control_id, ctype := ctype, name := spec.label
        , bounds := bounds_for_index st.position_idx grid
        , pageId := pageId, values := [val]
        , mode := some (control_mode spec ctype)
        , variant := some (if ctype == "fader" then "thin" else "default")
        , color := spec.color }
      let st := { st with controls := st.controls ++ [ctrl], ovst := ov.2 }
      let st := assignGroup pageId spec st.next_control_id st
      { st with next_control_id := st.next_control_id + 1
              , position_idx := st.position_idx + 1 }

/-- Splitting one section into page-sized chunks (`generate_preset`
lines 349-382): group-header rows never count against the page
capacity; blank rows do. -/
def chunkSpecs (cap : Nat) (specs : List ControlSpec) : List (List ControlSpec) :=
  let non_group := specs.filter (fun s => !s.is_group)
  if non_group.length ≤ cap then [specs]
  else
    let acc := specs.foldl
      (fun (acc : List (List ControlSpec) × List ControlSpec × Nat) spec =>
        if spec.is_group then (acc.1, acc.2.1 ++ [spec], acc.2.2)
        else if acc.2.2 ≥ cap then (acc.1 ++ [acc.2.1], [spec], 1)
        else (acc.1, acc.2.1 ++ [spec], acc.2.2 + 1))
      ([], [], 0)
    if acc.2.1.isEmpty then acc.1 else acc.1 ++ [acc.2.1]

/-- The `by_section` grouping of `generate_preset` (lines 337-343): specs
keyed by section title, preserving both first-appearance order of
titles and the order of specs inside each title. -/
def addToSections (acc : List (String × List ControlSpec)) (s : ControlSpec) :
    List (String × List ControlSpec) :=
  match acc with
  | [] => [(s.sect, [s])]
  | (name, l) :: t =>
    if name == s.sect then (name, l ++ [s]) :: t else (name, l) :: addToSections t s

/-- Fold `addToSections` over the whole spec list. -/
def groupBySection (specs : List ControlSpec) : List (String × List ControlSpec) :=
  specs.foldl addToSections []

/-- Fresh placement counters at the start of each emitted page
(`position_idx = 0`, no armed span). -/
def resetPageSt (st : GenSt) : GenSt :=
  { st with position_idx := 0, current_group_name := none, current_group_remaining := 0 }

/-- Process the chunks of one section (`generate_preset` lines
383-660): each chunk becomes one page, named `"Title (k/n)"` when the
section spans several pages. -/
def processChunks (grid : Grid) (deviceMap : List (Nat × Nat)) (title : String)
    (chunks : List (List ControlSpec)) (pageId : Nat) (st : GenSt) (pages : List EPage) :
    Nat × GenSt × List EPage :=
  let total := chunks.length
  (List.range total).foldl
    (fun (acc : Nat × GenSt × List EPage) i =>
      let chunk := chunks.getD i []
      let ci := i + 1
      let page_name := if total == 1 then title else s!"{title} ({ci}/{total})"
      let pages := acc.2.2 ++ [{ pid := acc.1, name := page_name }]
      let st := (chunk.foldl (placeSpec grid deviceMap acc.1) (resetPageSt acc.2.1))
      (acc.1 + 1, st, pages))
    (pageId, st, pages)

/-- Smallest element of a list of `Int` (Python `min` over a nonempty
list; `0` is an unused placeholder for `[]`). -/
def listMinI : List Int → Int
  | [] => 0
  | a :: t => t.foldl min a

/-- Largest element of a list of `Int`. -/
def listMaxI : List Int → Int
  | [] => 0
  | a :: t => t.foldl max a

/-- The group bounding box computed by `generate_preset` (lines
686-700) from the member controls' boxes: 6px horizontal padding, the
label strip 22px above the topmost member, and the fixed height 16
(the computed-height formula in the source is commented out; `max_y`
is computed there but unused). -/
def groupBoxOf (objs : List EControl) : Bounds :=
  let min_x := listMinI (objs.map (fun c => c.bounds.x))
  let min_y := listMinI (objs.map (fun c => c.bounds.y))
  let max_x := listMaxI (objs.map (fun c => c.bounds.x + c.bounds.w))
  { x := min_x - 6, y := min_y - 22, w := (max_x - min_x) + 12, h := 16 }

/-- One iteration of the groups-array loop of `generate_preset`
(lines 668-742): entries with an empty member set are skipped without
consuming a group id; otherwise a group is emitted under the current
counter value, with label and color looked up in `group_defs` (the
internal name as fallback). -/
def buildGroupsStep (group_variant : Option String) (controls : List EControl)
    (group_defs : List ((Nat × String) × (String × Option String)))
    (acc : List EGroup × Nat) (e : (Nat × String) × List Nat) : List EGroup × Nat :=
  let pageId := e.1.1
  let internal := e.1.2
  let def_ := (alookup group_defs e.1).getD (internal, none)
  let objs := controls.filter (fun c => e.2.contains c.cid)
  if objs.isEmpty then acc
  else
    (acc.1 ++ [{ gid := acc.2, pageId := pageId, name := def_.1
               , bounds := groupBoxOf objs
               , color := optStrVal def_.2
               , variant := optStrVal group_variant }],
     acc.2 + 1)

/-- The groups array synthesis of `generate_preset` (lines 662-742):
one group per `group_controls` entry with a nonempty member set, ids
counted up from 1000. -/
def buildGroups (group_variant : Option String) (controls : List EControl)
    (group_defs : List ((Nat × String) × (String × Option String)))
    (entries : List ((Nat × String) × List Nat)) : List EGroup :=
  (entries.foldl (buildGroupsStep group_variant controls group_defs) ([], 1000)).1

/-- The finished preset document (the JSON-level metadata `version`,
`name` and `projectId` strings are elided: no claim touches them). -/
structure Preset where
  pages : List EPage
  devices : List EDevice
  overlays : List Overlay
  groups : List EGroup
  controls : List EControl
deriving Repr

/-- Device list expansion: ids are assigned 1.. in declaration order
(`generate_preset` lines 275-302), and the logical index→id map is
the identity on 1..n. -/
def mkDevices (names : List String) : List EDevice :=
  (List.range names.length).map (fun i => { did := i + 1, dname := names.getD i "" })

/-- The index→id map built from the expanded device list. -/
def deviceMapOf (devices : List EDevice) : List (Nat × Nat) :=
  (List.range devices.length).map (fun i => (i + 1, (devices.getD i { did := 1, dname := "" }).did))

/-- Initial placement state of a conversion run: control ids count
from 1 (`next_control_id = 1`). -/
def genInit : GenSt :=
  { position_idx := 0, current_group_name := none, current_group_remaining := 0
  , next_control_id := 1, controls := [], group_controls := [], group_defs := []
  , ovst := overlayInit }

/-- The full per-section / per-chunk loop of `generate_preset`:
page ids count from 1 across the whole run. -/
def runSections (grid : Grid) (deviceMap : List (Nat × Nat))
    (sections : List (String × List ControlSpec)) : Nat × GenSt × List EPage :=
  sections.foldl
    (fun acc sec =>
      processChunks grid deviceMap sec.1 (chunkSpecs (pageCap grid) sec.2) acc.1 acc.2.1 acc.2.2)
    (1, genInit, [])

/-- The `generate_preset` from `main.py`, for a given grid configuration,
expanded device list and group display variant (all three are derived
from the metadata map in the source). -/
def generate_preset (grid : Grid) (devices : List EDevice) (group_variant : Option String)
    (specs : List ControlSpec) : Preset :=
  let r := runSections grid (deviceMapOf devices) (groupBySection specs)
  { pages := r.2.2
  , devices := devices
  , overlays := r.2.1.ovst.overlays
  , groups := buildGroups group_variant r.2.1.controls r.2.1.group_defs r.2.1.group_controls
  , controls := r.2.1.controls }

/-! ### Inverse conversion (`json2md.py`) -/

/-- Sort key test of `controls_with_bounds.sort(key=(y, x))` in
`group_controls_by_page` (line 265). -/
def yxLe (a b : EControl) : Bool :=
  a.bounds.y < b.bounds.y || (a.bounds.y == b.bounds.y && a.bounds.x ≤ b.bounds.x)

/-- Insertion step for the `(y, x)` sort. -/
def insertYX (a : EControl) : List EControl → List EControl
  | [] => [a]
  | b :: t => if yxLe a b then a :: b :: t else b :: insertYX a t

/-- The page-order sort of controls: row by row, then column by
column. -/
def sortControlsByYX : List EControl → List EControl
  | [] => []
  | a :: t => insertYX a (sortControlsByYX t)

/-- The page-ordered bounds of the controls of one page of a preset. -/
def pageBoundsOf (p : Preset) (pid : Nat) : List Bounds :=
  (sortControlsByYX (p.controls.filter (fun c => c.pageId == pid))).map (fun c => c.bounds)

/-- The `is_header_only` test in `group_controls_by_page` (line 288): a
bare label strip has height at most 20. -/
def isHeaderOnly (g : Bounds) : Bool := g.h ≤ 20

/-- Candidate-membership test of `group_controls_by_page` (lines
292-311): header-only boxes capture controls horizontally within the
header's span (20px tolerance) and up to 100px below it; full boxes
capture controls lying entirely inside. -/
def matchesGroup (g c : Bounds) : Bool :=
  if isHeaderOnly g then
    c.x ≥ g.x && c.x + c.w ≤ g.x + g.w + 20 && c.y > g.y && c.y < g.y + 100
  else
    c.x ≥ g.x && c.x + c.w ≤ g.x + g.w && c.y ≥ g.y && c.y + c.h ≤ g.y + g.h

/-- The `matching_controls`: the candidates of one group, as pairs of
page-order index and bounds. -/
def matchingCtrls (g : Bounds) (ctrls : List Bounds) : List (Nat × Bounds) :=
  ctrls.enum.filter (fun p => matchesGroup g p.2)

/-- Smallest element of a list of `Nat` (placeholder `0` on `[]`). -/
def natMinL : List Nat → Nat
  | [] => 0
  | a :: t => t.foldl min a

/-- Largest element of a list of `Nat`. -/
def natMaxL : List Nat → Nat
  | [] => 0
  | a :: t => t.foldl max a

/-- Insertion step for the by-`x` sort of the top-row candidates. -/
def insertByX (a : Nat × Bounds) : List (Nat × Bounds) → List (Nat × Bounds)
  | [] => [a]
  | b :: t => if a.2.x ≤ b.2.x then a :: b :: t else b :: insertByX a t

/-- The `sorted(..., key=x)` over `(index, bounds)` pairs. -/
def sortByX : List (Nat × Bounds) → List (Nat × Bounds)
  | [] => []
  | a :: t => insertByX a (sortByX t)

/-- Insertion step for the ascending sort of index lists. -/
def insertNat (a : Nat) : List Nat → List Nat
  | [] => [a]
  | b :: t => if a ≤ b then a :: b :: t else b :: insertNat a t

/-- The `sorted` on a list of indices. -/
def sortNat : List Nat → List Nat
  | [] => []
  | a :: t => insertNat a (sortNat t)

/-- The `sorted_indices[i] + 1 == sorted_indices[i + 1]` scan
(`consecutive_in_list`, lines 328-331). -/
def consecSucc : List Nat → Bool
  | [] => true
  | [_] => true
  | a :: b :: t => (a + 1 == b) && consecSucc (b :: t)

/-- The `set(range(min_idx, max_idx + 1)) == set(sorted_indices)`
check of lines 341-346, as mutual containment. -/
def rangeSetEq (s : List Nat) : Bool :=
  let mn := natMinL s
  let mx := natMaxL s
  let rl := List.range' mn (mx + 1 - mn)
  rl.all (fun i => s.contains i) && s.all (fun i => rl.contains i)

/-- The span-vs-explicit decision of `group_controls_by_page` (lines
313-349) for one group, given the page-ordered control bounds and the
group's candidate list. -/
def spanDecision (ctrls : List Bounds) (matching : List (Nat × Bounds)) : Bool :=
  let min_y := listMinI (matching.map (fun p => p.2.y))
  let top_row_indices := (sortByX (matching.filter (fun p => p.2.y == min_y))).map (fun p => p.1)
  let all_in_top_row := matching.length == top_row_indices.length
  let is_contiguous_in_row :=
    if all_in_top_row && top_row_indices.length > 0 then
      let sorted_indices := sortNat top_row_indices
      let consecutive_in_list := consecSucc sorted_indices
      let all_controls_in_row :=
        (ctrls.enum.filter (fun p => p.2.y == min_y)).map (fun p => p.1)
      if consecutive_in_list && sorted_indices == all_controls_in_row then true
      else if consecutive_in_list then rangeSetEq sorted_indices
      else false
    else false
  is_contiguous_in_row && all_in_top_row

/-- How one group is re-encoded in the reconstructed tabular form. -/
inductive GroupEnc where
  | span (n : Nat)
  | explicitTags (members : List Nat)
deriving DecidableEq, Repr

/-- The re-encoding chosen by `group_controls_by_page` for one group
box: nothing when no candidate matches, a compact span (`Range` value
`len(top_row_indices)`, no per-control tags) when the decision holds,
and explicit per-candidate tagging otherwise. -/
def encodeGroup (ctrls : List Bounds) (g : Bounds) : Option GroupEnc :=
  let matching := matchingCtrls g ctrls
  if matching.isEmpty then none
  else
    let min_y := listMinI (matching.map (fun p => p.2.y))
    let top_row_indices := (sortByX (matching.filter (fun p => p.2.y == min_y))).map (fun p => p.1)
    if spanDecision ctrls matching then some (GroupEnc.span top_row_indices.length)
    else some (GroupEnc.explicitTags (matching.map (fun p => p.1)))

/-- The pad-reconstruction fragment of `extract_control_info` in
`json2md.py` (lines 149-174): choice labels come from a two-entry
overlay when one is referenced, and otherwise fall back to
`Off`/`On` (or `Released`/`Momentary` in momentary mode). -/
def extract_pad_choices (c : EControl) (overlay_map : List (Nat × List (Int × String))) :
    List (Int × String) :=
  let value := c.values.getD 0 { vid := "value", message := { deviceId := 1, mtype := "cc7" } }
  let off_val := value.message.offValue.getD 0
  let on_val := value.message.onValue.getD 127
  let fallback :=
    if c.mode == some "momentary" then [(off_val, "Released"), (on_val, "Momentary")]
    else [(off_val, "Off"), (on_val, "On")]
  match value.overlayId with
  | some oid =>
    match alookup overlay_map oid with
    | some oc => if oc.length == 2 then oc else fallback
    | none => fallback
  | none => fallback

/-! ### Spec-side geometric predicates and concrete inputs -/

/-- Box `g` geometrically encloses box `c`. -/
def enclosesBox (g c : Bounds) : Prop :=
  g.x ≤ c.x ∧ c.x + c.w ≤ g.x + g.w ∧ g.y ≤ c.y ∧ c.y + c.h ≤ g.y + g.h

instance (g c : Bounds) : Decidable (enclosesBox g c) := by
  unfold enclosesBox; infer_instance

/-- A plain continuous-range control spec (classified as a fader). -/
def sampleFader (sec : String) (n : Int) (lbl : String) : ControlSpec :=
  { sect := sec, cc := CCField.single n, label := lbl, min_val := 0, max_val := 127
  , choices := [], description := "" }

/-- A group-header row with internal id `gid` and span count `sz`. -/
def sampleHeader (sec lbl gid : String) (sz : Int) : ControlSpec :=
  { sect := sec, cc := CCField.single 0, label := lbl, min_val := 0, max_val := 0
  , choices := [], description := "", is_group := true, group_size := sz
  , group_id := some gid }

/-- A one-device configuration, as for a single-device preset. -/
def sampleDevices : List EDevice := mkDevices ["Dev"]

/-- The index→id map of `sampleDevices`. -/
def sampleDeviceMap : List (Nat × Nat) := deviceMapOf sampleDevices

/-- Input refuting C1: a span-1 group header `G` immediately followed
by a control carrying the explicit tag `H`. -/
def c1specs : List ControlSpec :=
  [ sampleHeader "S" "H" "H" 0, sampleHeader "S" "G" "G" 1
  , { sampleFader "S" 10 "X" with group_id := some "H" } ]

/-- The placement run over `c1specs`. -/
def c1run : Nat × GenSt × List EPage :=
  runSections defaultGrid sampleDeviceMap (groupBySection c1specs)

/-- Input refuting C2: one span-1 group with a single member control. -/
def c2specs : List ControlSpec := [sampleHeader "S" "G" "G" 1, sampleFader "S" 10 "A"]

/-- The placement run over `c2specs`. -/
def c2run : Nat × GenSt × List EPage :=
  runSections defaultGrid sampleDeviceMap (groupBySection c2specs)

/-- The preset generated from `c2specs`. -/
def c2preset : Preset := generate_preset defaultGrid sampleDevices none c2specs

/-- A blank-row spec (reserves a grid cell, emits no control). -/
def sampleBlank (sec : String) : ControlSpec :=
  { sect := sec, cc := CCField.single 0, label := "", min_val := 0, max_val := 0
  , choices := [], description := "", is_blank := true }

/-- A three-choice list control spec. -/
def sampleList (sec : String) (n : Int) (lbl : String) : ControlSpec :=
  { sect := sec, cc := CCField.single n, label := lbl, min_val := 0, max_val := 2
  , choices := [(0, "A"), (1, "B"), (2, "Q")], description := "" }

/-- C3 scenario-1 input: a span-2 group followed by its two members
and one further control outside the group. -/
def c3aspecs : List ControlSpec :=
  [ sampleHeader "S" "G" "G" 2, sampleFader "S" 10 "A", sampleFader "S" 11 "B"
  , sampleFader "S" 12 "C" ]

/-- The preset generated from `c3aspecs`. -/
def c3apreset : Preset := generate_preset defaultGrid sampleDevices none c3aspecs

/-- The placement run over `c3aspecs`. -/
def c3arun : Nat × GenSt × List EPage :=
  runSections defaultGrid sampleDeviceMap (groupBySection c3aspecs)

/-- C3 scenario-2 input: explicit-tag group members `A` and `C`
interrupted by the untagged control `B` in the same row. -/
def c3bspecs : List ControlSpec :=
  [ sampleHeader "S" "G" "G" 0
  , { sampleFader "S" 10 "A" with group_id := some "G" }
  , sampleFader "S" 11 "B"
  , { sampleFader "S" 12 "C" with group_id := some "G" } ]

/-- The preset generated from `c3bspecs`. -/
def c3bpreset : Preset := generate_preset defaultGrid sampleDevices none c3bspecs

/-- The placement run over `c3bspecs`. -/
def c3brun : Nat × GenSt × List EPage :=
  runSections defaultGrid sampleDeviceMap (groupBySection c3bspecs)

/-- Input for the C4 counterexample: one fader and one three-choice
list control (which interns one overlay). -/
def c4specs : List ControlSpec := [sampleFader "S" 10 "A", sampleList "S" 11 "B"]

/-- The preset generated from `c4specs`. -/
def c4preset : Preset := generate_preset defaultGrid sampleDevices none c4specs

/-- Concrete choice lists for the C5 witness: the third repeats the
first. -/
def c5lists : List (List (Int × String)) := [[(0, "A")], [(1, "B")], [(0, "A")]]

/-- Input for C7: forty plain faders in one section. -/
def c7specs : List ControlSpec :=
  (List.range 40).map (fun i => sampleFader "S" (10 + (i : Int)) "P")

/-- The preset generated from `c7specs`. -/
def c7preset : Preset := generate_preset defaultGrid sampleDevices none c7specs

/-- Input for C10: a two-choice toggle (`Yes`/`No`) pad control. -/
def c10spec : ControlSpec :=
  { sampleFader "S" 20 "Sw" with choices := [(0, "Yes"), (127, "No")] }

/-- The preset generated from `[c10spec]`. -/
def c10preset : Preset := generate_preset defaultGrid sampleDevices none [c10spec]

/-! ### Spec-side predicates (formalizing the specification's words) -/

/-- First value of a choice list (spec side). -/
def firstValOf (cs : List (Int × String)) : Int := (cs.headD (0, "")).1

/-- Spec side: the values of the list are exactly consecutive,
starting from the first value. -/
def SeqVals (cs : List (Int × String)) : Prop :=
  ∀ i, (h : i < cs.length) → (cs.get ⟨i, h⟩).1 = firstValOf cs + i

instance (cs : List (Int × String)) : Decidable (SeqVals cs) := by
  unfold SeqVals; infer_instance

/-- Spec side: compact sequential notation — bare labels, no
numbers. -/
def compactRendering (cs : List (Int × String)) : String :=
  String.intercalate ", " (cs.map (fun c => c.2))

/-- Spec side: explicit notation — every entry as `value=label`. -/
def explicitRendering (cs : List (Int × String)) : String :=
  String.intercalate ", " (cs.map (fun c => s!"{c.1}={c.2}"))

/-- Spec side: keep the first occurrence of every key, in order of
first appearance (`seen` holds the keys already encountered). -/
def dedupKeepFirstAux (seen : List (List (Int × String))) :
    List (List (Int × String)) → List (List (Int × String))
  | [] => []
  | a :: t =>
    if seen.contains a then dedupKeepFirstAux seen t
    else a :: dedupKeepFirstAux (seen ++ [a]) t

/-- The distinct choice lists of a run, in order of first
appearance. -/
def firstOccurrences (l : List (List (Int × String))) : List (List (Int × String)) :=
  dedupKeepFirstAux [] l

/-- Index of the first occurrence of a key in a list of choice
lists. -/
def idxOf1 (k : List (Int × String)) : List (List (Int × String)) → Nat
  | [] => 0
  | a :: t => if a == k then 0 else idxOf1 k t + 1

/-- The interning state reached after the distinct keys `seen` have
been interned in order: overlay `i` holds key `i` with id `i + 1`. -/
def stOf (seen : List (List (Int × String))) : OverlaySt :=
  { overlays := (seen.zip (List.range' 1 seen.length)).map
      (fun p => { oid := p.2, items := p.1 })
  , keyToId := seen.zip (List.range' 1 seen.length)
  , nextId := seen.length + 1 }

/-- The ids `runOverlayIds` hands out, computed directly from the
`seen` list (spec side). -/
def idsFrom (seen : List (List (Int × String))) : List (List (Int × String)) → List Nat
  | [] => []
  | k :: t =>
    if seen.contains k then (1 + idxOf1 k seen) :: idsFrom seen t
    else (seen.length + 1) :: idsFrom (seen ++ [k]) t

/-- Invariant of the overlay-interning state: ids are `1..n` in table
order and the counter sits one past the end. -/
def OverlaysOk (ov : OverlaySt) : Prop :=
  ov.overlays.map (fun o => o.oid) = List.range' 1 ov.overlays.length ∧
  ov.nextId = ov.overlays.length + 1

/-- Invariant of the placement state: control ids are `1..n` in
emission order and the counter sits one past the end. -/
def CtrlIdsOk (st : GenSt) : Prop :=
  st.controls.map (fun c => c.cid) = List.range' 1 st.controls.length ∧
  st.next_control_id = st.controls.length + 1

/-- Invariant of the whole run state: control ids, overlay ids and
page ids are each `1..n` in order. -/
def RunOk (acc : Nat × GenSt × List EPage) : Prop :=
  CtrlIdsOk acc.2.1 ∧ OverlaysOk acc.2.1.ovst ∧
  acc.2.2.map (fun p => p.pid) = List.range' 1 acc.2.2.length ∧
  acc.1 = acc.2.2.length + 1

/-- Spec side (C3): every candidate of the group lies in the top row
(no candidate lies below the row of minimum `y`). -/
def AllTopRow (matching : List (Nat × Bounds)) : Prop :=
  ∀ p ∈ matching, p.2.y = listMinI (matching.map (fun q => q.2.y))

instance (matching : List (Nat × Bounds)) : Decidable (AllTopRow matching) := by
  unfold AllTopRow; infer_instance

/-- Spec side (C3): the candidate indices are consecutive in the
page's control ordering — equivalently, no position between the first
and the last candidate index is occupied by a non-candidate. -/
def NoIndexGap (idxs : List Nat) : Prop :=
  ∀ k, natMinL idxs ≤ k → k ≤ natMaxL idxs → k ∈ idxs

instance (idxs : List Nat) : Decidable (NoIndexGap idxs) := by
  unfold NoIndexGap
  have : (∀ k ∈ List.range' (natMinL idxs) (natMaxL idxs + 1 - natMinL idxs), k ∈ idxs) ↔
      (∀ k, natMinL idxs ≤ k → k ≤ natMaxL idxs → k ∈ idxs) := by
    constructor
    · intro h k h1 h2
      exact h k (List.mem_range'_1.mpr ⟨h1, by omega⟩)
    · intro h k hk
      rcases List.mem_range'_1.mp hk with ⟨h1, h2⟩
      exact h k h1 (by omega)
  exact decidable_of_iff _ this

end MdE1

namespace MdE1

/-! ### Shared helper lemmas -/

theorem foldl_min_le_init (t : List Int) (a : Int) : t.foldl min a ≤ a := by
  induction t generalizing a with
  | nil => exact le_refl a
  | cons b t ih => exact le_trans (ih (min a b)) (min_le_left a b)

theorem foldl_min_le_mem (t : List Int) (a x : Int) (hx : x ∈ t) : t.foldl min a ≤ x := by
  induction t generalizing a with
  | nil => cases hx
  | cons b t ih =>
    rcases List.mem_cons.mp hx with h | h
    · subst h
      exact le_trans (foldl_min_le_init t (min a x)) (min_le_right a x)
    · exact ih (min a b) h

theorem assignGroup_controls (pid : Nat) (spec : ControlSpec) (cid : Nat) (st : GenSt) :
    (assignGroup pid spec cid st).controls = st.controls := by
  unfold assignGroup
  cases optStrVal spec.group_id with
  | some g => rfl
  | none =>
    by_cases h : st.current_group_remaining > 0
    · rw [if_pos h]; cases optStrVal st.current_group_name <;> rfl
    · rw [if_neg h]

theorem assignGroup_position_idx (pid : Nat) (spec : ControlSpec) (cid : Nat) (st : GenSt) :
    (assignGroup pid spec cid st).position_idx = st.position_idx := by
  unfold assignGroup
  cases optStrVal spec.group_id with
  | some g => rfl
  | none =>
    by_cases h : st.current_group_remaining > 0
    · rw [if_pos h]; cases optStrVal st.current_group_name <;> rfl
    · rw [if_neg h]

theorem assignGroup_next_control_id (pid : Nat) (spec : ControlSpec) (cid : Nat) (st : GenSt) :
    (assignGroup pid spec cid st).next_control_id = st.next_control_id := by
  unfold assignGroup
  cases optStrVal spec.group_id with
  | some g => rfl
  | none =>
    by_cases h : st.current_group_remaining > 0
    · rw [if_pos h]; cases optStrVal st.current_group_name <;> rfl
    · rw [if_neg h]

theorem assignGroup_ovst (pid : Nat) (spec : ControlSpec) (cid : Nat) (st : GenSt) :
    (assignGroup pid spec cid st).ovst = st.ovst := by
  unfold assignGroup
  cases optStrVal spec.group_id with
  | some g => rfl
  | none =>
    by_cases h : st.current_group_remaining > 0
    · rw [if_pos h]; cases optStrVal st.current_group_name <;> rfl
    · rw [if_neg h]

theorem listMinI_le (l : List Int) (x : Int) (hx : x ∈ l) : listMinI l ≤ x := by
  cases l with
  | nil => cases hx
  | cons a t =>
    rcases List.mem_cons.mp hx with h | h
    · subst h; exact foldl_min_le_init t x
    · exact foldl_min_le_mem t a x h

theorem init_le_foldl_max (t : List Int) (a : Int) : a ≤ t.foldl max a := by
  induction t generalizing a with
  | nil => exact le_refl a
  | cons b t ih => exact le_trans (le_max_left a b) (ih (max a b))

theorem mem_le_foldl_max (t : List Int) (a x : Int) (hx : x ∈ t) : x ≤ t.foldl max a := by
  induction t generalizing a with
  | nil => cases hx
  | cons b t ih =>
    rcases List.mem_cons.mp hx with h | h
    · subst h
      exact le_trans (le_max_right a x) (init_le_foldl_max t (max a x))
    · exact ih (max a b) h

theorem le_listMaxI (l : List Int) (x : Int) (hx : x ∈ l) : x ≤ listMaxI l := by
  cases l with
  | nil => cases hx
  | cons a t =>
    rcases List.mem_cons.mp hx with h | h
    · subst h; exact init_le_foldl_max t x
    · exact mem_le_foldl_max t a x h

end MdE1


namespace MdE1

/-! ### C1: span-group assignment -/

/-- Claim C1: (amended).  A group-header spec occupies no grid cell and
emits no control; a header with span count `N > 0` arms the span (the
current group becomes the header's internal name with `N` remaining
slots).  An emitted control *without* a truthy explicit group tag that
arrives while a span is armed is recorded as a member of the current
group and consumes one slot; a control *with* a truthy explicit tag is
recorded under its own tag's group instead — the explicit tag takes
priority over positional contiguity — and consumes no span slot. -/
theorem C1_span_assignment :
    (∀ (grid : Grid) (dm : List (Nat × Nat)) (pid : Nat) (st : GenSt) (spec : ControlSpec),
      spec.is_group = true →
        (placeSpec grid dm pid st spec).position_idx = st.position_idx ∧
        (placeSpec grid dm pid st spec).controls = st.controls ∧
        (placeSpec grid dm pid st spec).next_control_id = st.next_control_id) ∧
    (∀ (grid : Grid) (dm : List (Nat × Nat)) (pid : Nat) (st : GenSt) (spec : ControlSpec),
      spec.is_group = true → 0 < spec.group_size →
        (placeSpec grid dm pid st spec).current_group_name =
          some ((optStrVal spec.group_id).getD spec.label) ∧
        (placeSpec grid dm pid st spec).current_group_remaining = spec.group_size.toNat) ∧
    (∀ (pid : Nat) (spec : ControlSpec) (cid : Nat) (st : GenSt) (g : String),
      optStrVal spec.group_id = none → optStrVal st.current_group_name = some g →
      0 < st.current_group_remaining →
        assignGroup pid spec cid st =
          { st with group_controls := dictInsertAppend st.group_controls (pid, g) cid
                  , current_group_remaining := st.current_group_remaining - 1 }) ∧
    (∀ (pid : Nat) (spec : ControlSpec) (cid : Nat) (st : GenSt) (g : String),
      optStrVal spec.group_id = some g →
        (assignGroup pid spec cid st =
          { st with group_controls := dictInsertAppend st.group_controls (pid, g) cid }) ∧
        (assignGroup pid spec cid st).current_group_remaining = st.current_group_remaining) := by
  refine ⟨?_, ?_, ?_, ?_⟩
  · intro grid dm pid st spec h
    simp only [placeSpec, h, if_true]
    split <;> simp
  · intro grid dm pid st spec h hsz
    simp only [placeSpec, h, if_true]
    rw [if_pos hsz]
    exact ⟨rfl, rfl⟩
  · intro pid spec cid st g hid hname hrem
    simp only [assignGroup, hid, hname, if_pos hrem]
  · intro pid spec cid st g hid
    simp [assignGroup, hid]

/-- Witness for C1 at concrete inputs: a span-1 header arms the span,
and an explicitly `"H"`-tagged control is recorded under `"H"`. -/
theorem C1_span_assignment_witness :
    (placeSpec defaultGrid sampleDeviceMap 1 genInit (sampleHeader "S" "G" "G" 1)).controls =
      genInit.controls ∧
    (placeSpec defaultGrid sampleDeviceMap 1 genInit
      (sampleHeader "S" "G" "G" 1)).current_group_remaining = (1 : Int).toNat ∧
    assignGroup 1 { sampleFader "S" 10 "X" with group_id := some "H" } 1 genInit =
      { genInit with group_controls := dictInsertAppend genInit.group_controls (1, "H") 1 } :=
  ⟨(C1_span_assignment.1 _ _ _ _ _ rfl).2.1,
   (C1_span_assignment.2.1 _ _ _ _ _ rfl (by decide)).2,
   (C1_span_assignment.2.2.2 _ _ _ _ "H" (by decide)).1⟩

/-- Claim C1: counterexample.  In `c1specs`, the span-1 header `G` is
immediately followed by one (non-blank, non-header) control, which
carries the explicit tag `H`: the claim says it must be assigned to
`G` no matter its tag, but the run assigns it to `H` and `G` gets no
member at all. -/
theorem C1_counterexample :
    alookup c1run.2.1.group_controls (1, "G") = none ∧
    alookup c1run.2.1.group_controls (1, "H") = some [1] := by decide

/-! ### C2: group bounding box -/

/-- Claim C2: (amended).  The group box synthesized by the forward
conversion takes its horizontal extent from the union of the member
boxes expanded by 6px on each side, but vertically it is only a label
strip: its top edge sits 22px above the topmost member and its height
is the fixed constant 16.  Hence it encloses every member
horizontally, yet encloses no member with positive height. -/
theorem C2_group_box (objs : List EControl) :
    (groupBoxOf objs).h = 16 ∧
    (groupBoxOf objs).y = listMinI (objs.map fun c => c.bounds.y) - 22 ∧
    (groupBoxOf objs).x = listMinI (objs.map fun c => c.bounds.x) - 6 ∧
    (groupBoxOf objs).x + (groupBoxOf objs).w =
      listMaxI (objs.map fun c => c.bounds.x + c.bounds.w) + 6 ∧
    (∀ c ∈ objs, (groupBoxOf objs).x ≤ c.bounds.x ∧
      c.bounds.x + c.bounds.w ≤ (groupBoxOf objs).x + (groupBoxOf objs).w) ∧
    (∀ c ∈ objs, 0 < c.bounds.h → ¬ enclosesBox (groupBoxOf objs) c.bounds) := by
  refine ⟨rfl, rfl, rfl, by simp [groupBoxOf]; ring, ?_, ?_⟩
  · intro c hc
    have h1 : listMinI (objs.map fun c => c.bounds.x) ≤ c.bounds.x :=
      listMinI_le _ _ (List.mem_map_of_mem _ hc)
    have h2 : c.bounds.x + c.bounds.w ≤ listMaxI (objs.map fun c => c.bounds.x + c.bounds.w) :=
      le_listMaxI _ _ (List.mem_map_of_mem _ hc)
    constructor
    · simp only [groupBoxOf]; linarith
    · simp only [groupBoxOf]; linarith
  · intro c hc hh henc
    have h1 : listMinI (objs.map fun c => c.bounds.y) ≤ c.bounds.y :=
      listMinI_le _ _ (List.mem_map_of_mem _ hc)
    rcases henc with ⟨-, -, -, h4⟩
    simp only [groupBoxOf] at h4
    linarith

/-- Witness for C2 at a concrete one-member list. -/
theorem C2_group_box_witness :
    (groupBoxOf [{ cid := 1, ctype := "fader", name := "A"
                 , bounds := { x := 20, y := 28, w := 146, h := 56 }
                 , pageId := 1, values := [] }]).h = 16 ∧
    ¬ enclosesBox
      (groupBoxOf [{ cid := 1, ctype := "fader", name := "A"
                   , bounds := { x := 20, y := 28, w := 146, h := 56 }
                   , pageId := 1, values := [] }])
      { x := 20, y := 28, w := 146, h := 56 } :=
  ⟨(C2_group_box _).1,
   (C2_group_box [{ cid := 1, ctype := "fader", name := "A"
                  , bounds := { x := 20, y := 28, w := 146, h := 56 }
                  , pageId := 1, values := [] }]).2.2.2.2.2
     { cid := 1, ctype := "fader", name := "A"
     , bounds := { x := 20, y := 28, w := 146, h := 56 }
     , pageId := 1, values := [] } (by simp) (by decide)⟩

/-- Claim C2: counterexample.  The preset generated from `c2specs` has
one group whose sole member is control 1 with box `(20,28,146,56)`,
yet the group's box is the strip `(14,6,158,16)`, which does not
enclose the member's box. -/
theorem C2_counterexample :
    c2run.2.1.group_controls = [((1, "G"), [1])] ∧
    c2preset.groups.map (fun g => g.bounds) = [{ x := 14, y := 6, w := 158, h := 16 }] ∧
    c2preset.controls.map (fun c => c.bounds) = [{ x := 20, y := 28, w := 146, h := 56 }] ∧
    ¬ enclosesBox { x := 14, y := 6, w := 158, h := 16 } { x := 20, y := 28, w := 146, h := 56 } := by
  decide

end MdE1

namespace MdE1

/-! ### C6: grid placement formula -/

/-- Claim C6:.  For `C = grid.cols` configured columns, the cell at
0-based position index `i` has row `i / C` and column `i % C`, with
top-left corner `x = left_offset + col·(cell_w + xpadding)` and
`y = top_offset + row·(cell_h + ypadding)`; and each emitted fader
control is placed in exactly the cell of the current position index,
which then advances by one. -/
theorem C6_grid_placement :
    (∀ (i : Nat) (g : Grid), bounds_for_index i g =
      { x := g.left_offset + ((i % g.cols : Nat) : Int) * (g.cell_w + g.xpadding)
      , y := g.top_offset + ((i / g.cols : Nat) : Int) * (g.cell_h + g.ypadding)
      , w := g.cell_w, h := g.cell_h }) ∧
    (∀ (grid : Grid) (dm : List (Nat × Nat)) (pid : Nat) (st : GenSt) (spec : ControlSpec),
      spec.is_group = false → spec.is_blank = false → control_type spec = "fader" →
      ∃ c, (placeSpec grid dm pid st spec).controls = st.controls ++ [c] ∧
        c.bounds = bounds_for_index st.position_idx grid ∧
        (placeSpec grid dm pid st spec).position_idx = st.position_idx + 1) := by
  constructor
  · intro i g; rfl
  · intro grid dm pid st spec h1 h2 hct
    simp only [placeSpec, h1, h2, hct, Bool.false_eq_true, if_false]
    rw [if_neg (by decide), if_neg (by decide)]
    exact ⟨_, by rw [assignGroup_controls], rfl, by rw [assignGroup_position_idx]⟩

/-- Witness for C6: a concrete fader spec is emitted into the cell of
the current position index. -/
theorem C6_grid_placement_witness :
    ∃ c, (placeSpec defaultGrid sampleDeviceMap 1 genInit (sampleFader "S" 10 "A")).controls =
        genInit.controls ++ [c] ∧
      c.bounds = bounds_for_index genInit.position_idx defaultGrid ∧
      (placeSpec defaultGrid sampleDeviceMap 1 genInit (sampleFader "S" 10 "A")).position_idx =
        genInit.position_idx + 1 :=
  C6_grid_placement.2 defaultGrid sampleDeviceMap 1 genInit (sampleFader "S" 10 "A")
    rfl rfl (by decide)

/-! ### C8: message-encoding selection -/

/-- Claim C8:.  The explicit prefixes `N`/`P`/`S` select NRPN, Program
and SysEx message types; the default prefix `C` selects 14-bit CC
when the spec's maximum exceeds 127 and 7-bit CC otherwise; and the
wire-level message maximum is 16383 for NRPN and 14-bit CC, 127 for
Program and 7-bit CC. -/
theorem C8_message_encoding (spec : ControlSpec) :
    (spec.msg_type = "N" → message_type spec = "nrpn") ∧
    (spec.msg_type = "P" → message_type spec = "program") ∧
    (spec.msg_type = "S" → message_type spec = "sysex") ∧
    (spec.msg_type = "C" → 127 < spec.max_val → message_type spec = "cc14") ∧
    (spec.msg_type = "C" → spec.max_val ≤ 127 → message_type spec = "cc7") ∧
    message_max_value spec "nrpn" = 16383 ∧
    message_max_value spec "cc14" = 16383 ∧
    message_max_value spec "program" = 127 ∧
    message_max_value spec "cc7" = 127 := by
  refine ⟨?_, ?_, ?_, ?_, ?_, rfl, rfl, rfl, rfl⟩ <;> intro h <;>
    simp only [message_type, h]
  · rw [if_pos (by decide)]
  · rw [if_neg (by decide), if_pos (by decide)]
  · rw [if_neg (by decide), if_neg (by decide), if_pos (by decide)]
  · intro hmax
    rw [if_neg (by decide), if_neg (by decide), if_neg (by decide), if_pos (by exact hmax)]
  · intro hmax
    rw [if_neg (by decide), if_neg (by decide), if_neg (by decide),
      if_neg (not_lt.mpr hmax)]

/-- Witness for C8 at concrete specs covering each selection rule. -/
theorem C8_message_encoding_witness :
    message_type { sampleFader "S" 1 "A" with msg_type := "N" } = "nrpn" ∧
    message_type { sampleFader "S" 1 "A" with msg_type := "P" } = "program" ∧
    message_type { sampleFader "S" 1 "A" with msg_type := "S" } = "sysex" ∧
    message_type { sampleFader "S" 1 "A" with max_val := 16383 } = "cc14" ∧
    message_type (sampleFader "S" 1 "A") = "cc7" :=
  ⟨(C8_message_encoding _).1 rfl,
   (C8_message_encoding _).2.1 rfl,
   (C8_message_encoding _).2.2.1 rfl,
   (C8_message_encoding _).2.2.2.1 rfl (by decide),
   (C8_message_encoding _).2.2.2.2.1 rfl (by decide)⟩

end MdE1

namespace MdE1

/-! ### C7: page capacity and pagination -/

set_option maxRecDepth 40000 in
/-- Claim C7:.  Page capacity is `cols × rows`; a blank-row spec advances
the position counter by one and emits nothing else; and with the
default 6×6 grid (capacity 36), the forty-fader section `c7specs`
yields exactly two pages named `"S (1/2)"` and `"S (2/2)"`, holding 36
and 4 controls. -/
theorem C7_pagination :
    (∀ g : Grid, pageCap g = g.cols * g.rows) ∧
    (∀ (grid : Grid) (dm : List (Nat × Nat)) (pid : Nat) (st : GenSt) (spec : ControlSpec),
      spec.is_group = false → spec.is_blank = true →
        placeSpec grid dm pid st spec = { st with position_idx := st.position_idx + 1 }) ∧
    pageCap defaultGrid = 36 ∧
    c7preset.pages.map (fun p => (p.pid, p.name)) = [(1, "S (1/2)"), (2, "S (2/2)")] ∧
    (c7preset.controls.filter (fun c => c.pageId == 1)).length = 36 ∧
    (c7preset.controls.filter (fun c => c.pageId == 2)).length = 4 ∧
    c7preset.controls.length = 40 := by
  refine ⟨fun g => rfl, ?_, by decide, by decide, by decide, by decide, by decide⟩
  intro grid dm pid st spec h1 h2
  simp only [placeSpec, h1, h2, Bool.false_eq_true, if_false, if_true]

/-- Witness for C7: a concrete blank row advancing the counter. -/
theorem C7_pagination_witness :
    placeSpec defaultGrid sampleDeviceMap 1 genInit (sampleBlank "S") =
      { genInit with position_idx := genInit.position_idx + 1 } :=
  C7_pagination.2.1 _ _ _ _ _ rfl rfl

end MdE1

namespace MdE1

/-! ### C9: choice-list presentation -/

theorem isSeqFrom_iff_get (cs : List (Int × String)) : ∀ (v0 k : Int),
    isSeqFrom v0 k cs = true ↔ ∀ i, (h : i < cs.length) → (cs.get ⟨i, h⟩).1 = v0 + k + i := by
  induction cs with
  | nil => intro v0 k; simp [isSeqFrom]
  | cons c t ih =>
    intro v0 k
    simp only [isSeqFrom, Bool.and_eq_true, beq_iff_eq]
    constructor
    · rintro ⟨h0, hrec⟩ i hi
      cases i with
      | zero => simpa using h0
      | succ j =>
        have hj : j < t.length := by simpa [List.length_cons] using hi
        have := (ih v0 (k + 1)).mp hrec j hj
        show (t.get ⟨j, hj⟩).1 = v0 + k + ((j : Int) + 1)
        push_cast at this
        linarith
    · intro h
      refine ⟨by simpa using h 0 (by simp), (ih v0 (k + 1)).mpr ?_⟩
      intro j hj
      have := h (j + 1) (by simpa [List.length_cons] using hj)
      show (t.get ⟨j, hj⟩).1 = v0 + (k + 1) + j
      push_cast at this
      have ht : ((c :: t).get ⟨j + 1, by simpa [List.length_cons] using hj⟩).1 =
          (t.get ⟨j, hj⟩).1 := rfl
      rw [ht] at this
      linarith

/-- Claim C9:.  `format_choices` renders a choice list compactly (bare
labels) exactly when the list has more than two entries, the values
are exactly consecutive, and the first value is 0 or 1; in every
other case — in particular for every list of at most two entries —
each entry is rendered as an explicit `value=label` pair. -/
theorem C9_choice_formatting (cs : List (Int × String)) :
    (2 < cs.length → SeqVals cs → firstValOf cs = 0 ∨ firstValOf cs = 1 →
      format_choices cs = compactRendering cs) ∧
    (cs.length ≤ 2 ∨ ¬ SeqVals cs ∨ (firstValOf cs ≠ 0 ∧ firstValOf cs ≠ 1) →
      format_choices cs = explicitRendering cs) := by
  cases cs with
  | nil =>
    refine ⟨fun h => absurd h (by simp), fun _ => rfl⟩
  | cons c t =>
    obtain ⟨v, lb⟩ := c
    have hfirst : firstValOf ((v, lb) :: t) = v := rfl
    have hiff : isSeqFrom v 0 ((v, lb) :: t) = true ↔ SeqVals ((v, lb) :: t) := by
      rw [isSeqFrom_iff_get]
      unfold SeqVals
      constructor
      · intro h i hi
        have := h i hi
        rw [hfirst]
        simpa using this
      · intro h i hi
        have := h i hi
        rw [hfirst] at this
        simpa using this
    constructor
    · intro hlen hs hfv
      have hcond : (isSeqFrom v 0 ((v, lb) :: t) && ((v == 0) || (v == 1)) &&
          decide (((v, lb) :: t).length > 2)) = true := by
        simp only [Bool.and_eq_true, Bool.or_eq_true, beq_iff_eq, decide_eq_true_eq]
        refine ⟨⟨hiff.mpr hs, ?_⟩, hlen⟩
        rw [hfirst] at hfv
        exact hfv
      simp only [format_choices, hcond, if_true]
      rfl
    · intro hdis
      have hcond : ¬ ((isSeqFrom v 0 ((v, lb) :: t) && ((v == 0) || (v == 1)) &&
          decide (((v, lb) :: t).length > 2)) = true) := by
        simp only [Bool.and_eq_true, Bool.or_eq_true, beq_iff_eq, decide_eq_true_eq]
        rintro ⟨⟨hseqT, hor⟩, hlenT⟩
        rcases hdis with h | h | h
        · omega
        · exact h (hiff.mp hseqT)
        · rw [hfirst] at h
          rcases hor with h0 | h1
          · exact h.1 h0
          · exact h.2 h1
      simp only [format_choices]
      rw [if_neg hcond]
      rfl

/-- Witness for C9: a sequential three-entry list renders compactly;
a two-entry list renders explicitly. -/
theorem C9_choice_formatting_witness :
    format_choices [(0, "Off"), (1, "On"), (2, "Auto")] =
      compactRendering [(0, "Off"), (1, "On"), (2, "Auto")] ∧
    format_choices [(0, "Off"), (127, "On")] =
      explicitRendering [(0, "Off"), (127, "On")] :=
  ⟨(C9_choice_formatting _).1 (by decide) (by decide) (by decide),
   (C9_choice_formatting _).2 (Or.inl (by decide))⟩

end MdE1

namespace MdE1

/-! ### C10: pad controls and their reconstruction -/

theorem sortPairs_two (v1 v2 : Int) (l1 l2 : String) :
    ((sortPairs [(v1, l1), (v2, l2)]).getD 0 (0, "")).1 = min v1 v2 ∧
    ((sortPairs [(v1, l1), (v2, l2)]).getD 1 (0, "")).1 = max v1 v2 := by
  have hs : sortPairs [(v1, l1), (v2, l2)] =
      if pairLe (v1, l1) (v2, l2) then [(v1, l1), (v2, l2)] else [(v2, l2), (v1, l1)] := by
    simp [sortPairs, insertPair]
  by_cases h : pairLe (v1, l1) (v2, l2) = true
  · have hle : v1 ≤ v2 := by
      unfold pairLe at h
      simp only [Bool.or_eq_true, Bool.and_eq_true, decide_eq_true_eq, beq_iff_eq] at h
      rcases h with h' | ⟨h', -⟩
      · exact le_of_lt h'
      · exact le_of_eq h'
    rw [hs, if_pos h]
    exact ⟨(min_eq_left hle).symm, (max_eq_right hle).symm⟩
  · have hle : v2 ≤ v1 := by
      unfold pairLe at h
      simp only [Bool.or_eq_true, Bool.and_eq_true, decide_eq_true_eq, beq_iff_eq,
        not_or, not_and] at h
      exact le_of_not_lt h.1
    rw [hs, if_neg h]
    exact ⟨(min_eq_right hle).symm, (max_eq_left hle).symm⟩

/-- Claim C10:.  An emitted pad control carries `offValue` = the smaller
and `onValue` = the larger of its two choice values, with no overlay
reference; the inverse conversion therefore reconstructs its choices
from the mode-dependent default labels (`Off`/`On`, or
`Released`/`Momentary` in momentary mode).  In particular, the
`Yes`/`No` pad `c10spec` round-trips to `Off`/`On`: the original
labels are not recovered. -/
theorem C10_pad_roundtrip :
    (∀ (grid : Grid) (dm : List (Nat × Nat)) (pid : Nat) (st : GenSt) (spec : ControlSpec)
        (om : List (Nat × List (Int × String))) (v1 v2 : Int) (l1 l2 : String),
      spec.is_group = false → spec.is_blank = false → control_type spec = "pad" →
      spec.choices = [(v1, l1), (v2, l2)] →
      ∃ c, (placeSpec grid dm pid st spec).controls = st.controls ++ [c] ∧
        c.values.map (fun v => v.overlayId) = [none] ∧
        c.values.map (fun v => v.message.offValue) = [some (min v1 v2)] ∧
        c.values.map (fun v => v.message.onValue) = [some (max v1 v2)] ∧
        extract_pad_choices c om =
          (if control_mode spec "pad" == "momentary" then
            [(min v1 v2, "Released"), (max v1 v2, "Momentary")]
          else [(min v1 v2, "Off"), (max v1 v2, "On")])) ∧
    c10spec.choices = [(0, "Yes"), (127, "No")] ∧
    c10preset.controls.map (fun c => extract_pad_choices c []) = [[(0, "Off"), (127, "On")]] := by
  refine ⟨?_, rfl, by decide⟩
  intro grid dm pid st spec om v1 v2 l1 l2 h1 h2 hct hch
  simp only [placeSpec, h1, h2, hct, hch, Bool.false_eq_true, if_false]
  rw [if_neg (by decide), if_pos (by decide)]
  exact ⟨{ cid := st.next_control_id, ctype := "pad", name := spec.label
         , bounds := bounds_for_index st.position_idx grid, pageId := pid
         , values := [{ vid := "value"
                      , message := { deviceId := device_id_for dm spec.device_id
                                   , mtype := message_type spec
                                   , parameterNumber :=
                                       if (message_type spec == "program") = true then none
                                       else some spec.cc
                                   , offValue := some ((sortPairs [(v1, l1), (v2, l2)]).getD 0 (0, "")).1
                                   , onValue := some ((sortPairs [(v1, l1), (v2, l2)]).getD 1 (0, "")).1 } }]
         , mode := some (control_mode spec "pad"), visible := some true, color := spec.color }
       , by rw [assignGroup_controls]
       , rfl
       , by simp only [List.map]; rw [(sortPairs_two v1 v2 l1 l2).1]
       , by simp only [List.map]; rw [(sortPairs_two v1 v2 l1 l2).2]
       , by
          simp only [extract_pad_choices]
          rw [(sortPairs_two v1 v2 l1 l2).1, (sortPairs_two v1 v2 l1 l2).2]
          rfl⟩

/-- Witness for C10: the `Yes`/`No` pad spec emitted from the initial
state. -/
theorem C10_pad_roundtrip_witness :
    ∃ c, (placeSpec defaultGrid sampleDeviceMap 1 genInit c10spec).controls =
        genInit.controls ++ [c] ∧
      c.values.map (fun v => v.overlayId) = [none] ∧
      c.values.map (fun v => v.message.offValue) = [some (min 0 127)] ∧
      c.values.map (fun v => v.message.onValue) = [some (max 0 127)] ∧
      extract_pad_choices c [] =
        (if control_mode c10spec "pad" == "momentary" then
          [(min 0 127, "Released"), (max 0 127, "Momentary")]
        else [(min 0 127, "Off"), (max 0 127, "On")]) :=
  C10_pad_roundtrip.1 defaultGrid sampleDeviceMap 1 genInit c10spec [] 0 127 "Yes" "No"
    rfl rfl (by decide) rfl

end MdE1

namespace MdE1

/-! ### C4: id assignment across the document -/

theorem foldl_preserve {α β : Type} {P : α → Prop} {f : α → β → α} :
    ∀ (l : List β) (s : α), (∀ a b, P a → P (f a b)) → P s → P (l.foldl f s)
  | [], _, _, h0 => h0
  | b :: t, s, hstep, h0 => foldl_preserve t (f s b) hstep (hstep s b h0)

theorem placeSpec_shape (grid : Grid) (dm : List (Nat × Nat)) (pid : Nat)
    (st : GenSt) (spec : ControlSpec) :
    ((placeSpec grid dm pid st spec).controls = st.controls ∧
     (placeSpec grid dm pid st spec).next_control_id = st.next_control_id) ∨
    (∃ c, (placeSpec grid dm pid st spec).controls = st.controls ++ [c] ∧
      c.cid = st.next_control_id ∧
      (placeSpec grid dm pid st spec).next_control_id = st.next_control_id + 1) := by
  simp only [placeSpec]
  repeat' split
  all_goals first
    | exact Or.inl ⟨rfl, rfl⟩
    | exact Or.inr ⟨_, by rw [assignGroup_controls], rfl, by rw [assignGroup_next_control_id]⟩

theorem placeSpec_ovst_shape (grid : Grid) (dm : List (Nat × Nat)) (pid : Nat)
    (st : GenSt) (spec : ControlSpec) :
    (placeSpec grid dm pid st spec).ovst = st.ovst ∨
    ∃ ch, (placeSpec grid dm pid st spec).ovst = (overlay_id_for st.ovst ch).2 := by
  simp only [placeSpec]
  repeat' split
  all_goals first
    | exact Or.inl rfl
    | (left; rw [assignGroup_ovst]; done)
    | (right; refine ⟨spec.choices, ?_⟩; rw [assignGroup_ovst])

theorem overlay_id_for_ok (ov : OverlaySt) (ch : List (Int × String)) (h : OverlaysOk ov) :
    OverlaysOk (overlay_id_for ov ch).2 := by
  obtain ⟨h1, h2⟩ := h
  unfold overlay_id_for
  split
  · exact ⟨h1, h2⟩
  · refine ⟨?_, ?_⟩
    · simp only [List.map_append, List.map_cons, List.map_nil, List.length_append,
        List.length_cons, List.length_nil, h1, h2, List.range'_1_concat]
      simp [Nat.add_comm]
    · simp [h2]

theorem placeSpec_ctrlIdsOk (grid : Grid) (dm : List (Nat × Nat)) (pid : Nat)
    (st : GenSt) (spec : ControlSpec) (h : CtrlIdsOk st) :
    CtrlIdsOk (placeSpec grid dm pid st spec) := by
  obtain ⟨h1, h2⟩ := h
  rcases placeSpec_shape grid dm pid st spec with ⟨hc, hn⟩ | ⟨c, hc, hcid, hn⟩
  · exact ⟨by rw [hc, h1], by rw [hn, hc, h2]⟩
  · constructor
    · rw [hc, List.map_append, h1, List.length_append, List.map_cons, List.map_nil, hcid, h2]
      simp [List.range'_1_concat, Nat.add_comm]
    · rw [hn, hc, h2]
      simp [Nat.add_comm]

theorem placeSpec_overlaysOk (grid : Grid) (dm : List (Nat × Nat)) (pid : Nat)
    (st : GenSt) (spec : ControlSpec) (h : OverlaysOk st.ovst) :
    OverlaysOk (placeSpec grid dm pid st spec).ovst := by
  rcases placeSpec_ovst_shape grid dm pid st spec with hov | ⟨ch, hov⟩
  · rw [hov]; exact h
  · rw [hov]; exact overlay_id_for_ok st.ovst ch h

theorem processChunks_ok (grid : Grid) (dm : List (Nat × Nat)) (title : String)
    (chunks : List (List ControlSpec)) (pid0 : Nat) (st0 : GenSt) (pages0 : List EPage)
    (h : RunOk (pid0, st0, pages0)) :
    RunOk (processChunks grid dm title chunks pid0 st0 pages0) := by
  unfold processChunks
  refine foldl_preserve _ _ ?_ h
  intro acc i hacc
  obtain ⟨h1, h2, h3, h4⟩ := hacc
  refine ⟨?_, ?_, ?_, ?_⟩
  · exact foldl_preserve _ _
      (fun s sp hs => placeSpec_ctrlIdsOk grid dm acc.1 s sp hs) h1
  · exact foldl_preserve (P := fun s : GenSt => OverlaysOk s.ovst) _ _
      (fun s sp hs => placeSpec_overlaysOk grid dm acc.1 s sp hs) h2
  · simp only [List.map_append, List.map_cons, List.map_nil, List.length_append,
      List.length_cons, List.length_nil, h3, h4, List.range'_1_concat]
    simp [Nat.add_comm]
  · simp [h4]

theorem runSections_ok (grid : Grid) (dm : List (Nat × Nat))
    (sections : List (String × List ControlSpec)) :
    RunOk (runSections grid dm sections) := by
  unfold runSections
  refine foldl_preserve _ _ ?_ ?_
  · intro acc sec hacc
    exact processChunks_ok grid dm sec.1 _ acc.1 acc.2.1 acc.2.2 hacc
  · exact ⟨⟨rfl, rfl⟩, ⟨rfl, rfl⟩, rfl, rfl⟩

theorem buildGroups_gids (gv : Option String) (controls : List EControl)
    (gdefs : List ((Nat × String) × (String × Option String)))
    (entries : List ((Nat × String) × List Nat)) :
    (buildGroups gv controls gdefs entries).map (fun g => g.gid) =
      List.range' 1000 (buildGroups gv controls gdefs entries).length := by
  unfold buildGroups
  have h := foldl_preserve (P := fun acc : List EGroup × Nat =>
      acc.1.map (fun g => g.gid) = List.range' 1000 acc.1.length ∧
      acc.2 = 1000 + acc.1.length)
    (f := buildGroupsStep gv controls gdefs) entries ([], 1000) ?_ ⟨rfl, rfl⟩
  · exact h.1
  · intro acc e hacc
    obtain ⟨ha, hb⟩ := hacc
    simp only [buildGroupsStep]
    split
    · exact ⟨ha, hb⟩
    · constructor
      · simp only [List.map_append, List.map_cons, List.map_nil, List.length_append,
          List.length_cons, List.length_nil, ha, hb, List.range'_1_concat]
      · simp only [List.length_append, List.length_cons, List.length_nil, hb]
        omega

/-- Claim C4: (amended).  In every document the forward conversion
produces, ids are unique *within each category*: control ids are
exactly `1..n` in emission order, group ids exactly `1000..`, page ids
exactly `1..` and overlay ids exactly `1..`; and control and group ids
are disjoint whenever the document holds at most 999 controls.  Ids
are *not* globally unique across categories: page, device, overlay and
control ids all start at 1 (see the counterexample). -/
theorem C4_id_uniqueness (grid : Grid) (devices : List EDevice) (gv : Option String)
    (specs : List ControlSpec) :
    ((generate_preset grid devices gv specs).controls.map (fun c => c.cid) =
      List.range' 1 (generate_preset grid devices gv specs).controls.length) ∧
    ((generate_preset grid devices gv specs).groups.map (fun g => g.gid) =
      List.range' 1000 (generate_preset grid devices gv specs).groups.length) ∧
    ((generate_preset grid devices gv specs).pages.map (fun p => p.pid) =
      List.range' 1 (generate_preset grid devices gv specs).pages.length) ∧
    ((generate_preset grid devices gv specs).overlays.map (fun o => o.oid) =
      List.range' 1 (generate_preset grid devices gv specs).overlays.length) ∧
    ((generate_preset grid devices gv specs).controls.length ≤ 999 →
      ∀ i ∈ (generate_preset grid devices gv specs).controls.map (fun c => c.cid),
        i ∉ (generate_preset grid devices gv specs).groups.map (fun g => g.gid)) := by
  obtain ⟨⟨hc1, hc2⟩, ⟨ho1, ho2⟩, hp, hpc⟩ :=
    runSections_ok grid (deviceMapOf devices) (groupBySection specs)
  simp only [generate_preset]
  refine ⟨hc1, buildGroups_gids _ _ _ _, hp, ho1, ?_⟩
  intro hlen i hi hig
  rw [hc1] at hi
  rw [buildGroups_gids] at hig
  rcases List.mem_range'_1.mp hi with ⟨hi1, hi2⟩
  rcases List.mem_range'_1.mp hig with ⟨hg1, hg2⟩
  omega

/-- Witness for C4 on the one-group one-control preset of `c2specs`:
control id 1 is present and absent from the group ids. -/
theorem C4_id_uniqueness_witness :
    (1 : Nat) ∈ (generate_preset defaultGrid sampleDevices none c2specs).controls.map
      (fun c => c.cid) ∧
    (1 : Nat) ∉ (generate_preset defaultGrid sampleDevices none c2specs).groups.map
      (fun g => g.gid) :=
  ⟨by decide,
   (C4_id_uniqueness defaultGrid sampleDevices none c2specs).2.2.2.2 (by decide) 1 (by decide)⟩

/-- Claim C4: counterexample.  In the preset generated from `c4specs`,
the numeric id 1 is simultaneously a page id, a device id, an overlay
id, and a control id — ids are not globally unique across the
document tree. -/
theorem C4_counterexample :
    c4preset.pages.map (fun p => p.pid) = [1] ∧
    c4preset.devices.map (fun d => d.did) = [1] ∧
    c4preset.overlays.map (fun o => o.oid) = [1] ∧
    c4preset.controls.map (fun c => c.cid) = [1, 2] := by decide

end MdE1

namespace MdE1

theorem contains_iff (l : List (List (Int × String))) (k : List (Int × String)) :
    l.contains k = true ↔ k ∈ l := by
  simp [List.contains, List.elem_iff]

theorem idxOf1_append_left (k : List (Int × String)) (l l' : List (List (Int × String)))
    (h : k ∈ l) : idxOf1 k (l ++ l') = idxOf1 k l := by
  induction l with
  | nil => cases h
  | cons a t ih =>
    by_cases hak : (a == k) = true
    · simp [idxOf1, hak]
    · rcases List.mem_cons.mp h with he | ht
      · exact absurd (beq_iff_eq.mpr he.symm) hak
      · simp [idxOf1, hak, ih ht]

theorem idxOf1_append_self (k : List (Int × String)) (l rest : List (List (Int × String)))
    (h : ¬ k ∈ l) : idxOf1 k (l ++ k :: rest) = l.length := by
  induction l with
  | nil => simp [idxOf1]
  | cons a t ih =>
    have hak : ¬ (a == k) = true := by
      intro hc
      exact h (List.mem_cons.mpr (Or.inl (beq_iff_eq.mp hc).symm))
    simp only [List.cons_append, idxOf1, if_neg hak, List.length_cons]
    have := ih (fun hc => h (List.mem_cons.mpr (Or.inr hc)))
    simp only [List.append_eq] at this ⊢
    omega

theorem idxOf1_lt_length (k : List (Int × String)) (l : List (List (Int × String)))
    (h : k ∈ l) : idxOf1 k l < l.length := by
  induction l with
  | nil => cases h
  | cons a t ih =>
    by_cases hak : (a == k) = true
    · simp [idxOf1, hak]
    · rcases List.mem_cons.mp h with he | ht
      · exact absurd (beq_iff_eq.mpr he.symm) hak
      · simp only [idxOf1, if_neg hak, List.length_cons]
        exact Nat.succ_lt_succ (ih ht)

theorem idxOf1_inj (l : List (List (Int × String))) (k k' : List (Int × String))
    (hk : k ∈ l) (hk' : k' ∈ l) (h : idxOf1 k l = idxOf1 k' l) : k = k' := by
  induction l with
  | nil => cases hk
  | cons a t ih =>
    by_cases hak : (a == k) = true
    · by_cases hak' : (a == k') = true
      · rw [← beq_iff_eq.mp hak, ← beq_iff_eq.mp hak']
      · rcases List.mem_cons.mp hk' with he | ht
        · exact absurd (beq_iff_eq.mpr he.symm) hak'
        · rw [idxOf1, idxOf1, if_pos hak, if_neg hak'] at h
          cases h
    · by_cases hak' : (a == k') = true
      · rw [idxOf1, idxOf1, if_neg hak, if_pos hak'] at h
        cases h
      · rcases List.mem_cons.mp hk with he | ht
        · exact absurd (beq_iff_eq.mpr he.symm) hak
        · rcases List.mem_cons.mp hk' with he' | ht'
          · exact absurd (beq_iff_eq.mpr he'.symm) hak'
          · rw [idxOf1, idxOf1, if_neg hak, if_neg hak'] at h
            exact ih ht ht' (Nat.succ_injective h)

end MdE1

namespace MdE1

theorem alookup_zip_range' :
    ∀ (seen : List (List (Int × String))) (start : Nat) (k : List (Int × String)),
    alookup (seen.zip (List.range' start seen.length)) k =
      if seen.contains k then some (start + idxOf1 k seen) else none := by
  intro seen
  induction seen with
  | nil => intro start k; rfl
  | cons a t ih =>
    intro start k
    rw [show (a :: t).length = t.length + 1 from rfl, List.range'_succ]
    show (if (a == k) = true then some start else alookup (t.zip (List.range' (start + 1) t.length)) k) = _
    by_cases hak : (a == k) = true
    · rw [if_pos hak]
      have hmem : (a :: t).contains k = true :=
        (contains_iff _ _).mpr (List.mem_cons.mpr (Or.inl (beq_iff_eq.mp hak).symm))
      rw [if_pos hmem]
      simp [idxOf1, hak]
    · rw [if_neg hak, ih (start + 1) k]
      by_cases hm : t.contains k = true
      · rw [if_pos hm]
        have : (a :: t).contains k = true :=
          (contains_iff _ _).mpr (List.mem_cons.mpr (Or.inr ((contains_iff _ _).mp hm)))
        rw [if_pos this]
        simp only [idxOf1, if_neg hak]
        congr 1
        omega
      · rw [if_neg hm]
        have : ¬ (a :: t).contains k = true := by
          intro hc
          rcases List.mem_cons.mp ((contains_iff _ _).mp hc) with he | ht
          · exact hak (beq_iff_eq.mpr he.symm)
          · exact hm ((contains_iff _ _).mpr ht)
        rw [if_neg this]

theorem stOf_zip_snoc (seen : List (List (Int × String))) (k : List (Int × String)) :
    (seen ++ [k]).zip (List.range' 1 (seen ++ [k]).length) =
      seen.zip (List.range' 1 seen.length) ++ [(k, seen.length + 1)] := by
  rw [List.length_append, List.length_cons, List.length_nil, List.range'_1_concat,
    List.zip_append (by simp)]
  simp [Nat.add_comm]

theorem overlay_id_for_stOf (seen : List (List (Int × String))) (k : List (Int × String)) :
    overlay_id_for (stOf seen) k =
      if seen.contains k then (1 + idxOf1 k seen, stOf seen)
      else (seen.length + 1, stOf (seen ++ [k])) := by
  unfold overlay_id_for
  show (match alookup (seen.zip (List.range' 1 seen.length)) k with
    | some oid => (oid, stOf seen)
    | none => _) = _
  rw [alookup_zip_range' seen 1 k]
  by_cases hm : seen.contains k = true
  · rw [if_pos hm, if_pos hm]
  · rw [if_neg hm, if_neg hm]
    unfold stOf
    rw [stOf_zip_snoc]
    simp [List.map_append, Prod.ext_iff]

end MdE1

namespace MdE1

theorem runOverlayIds_stOf :
    ∀ (lists seen : List (List (Int × String))),
    runOverlayIds (stOf seen) lists =
      (idsFrom seen lists, stOf (seen ++ dedupKeepFirstAux seen lists)) := by
  intro lists
  induction lists with
  | nil => intro seen; simp [runOverlayIds, idsFrom, dedupKeepFirstAux]
  | cons k t ih =>
    intro seen
    simp only [runOverlayIds]
    rw [overlay_id_for_stOf]
    by_cases hm : seen.contains k = true
    · rw [if_pos hm]
      dsimp only
      rw [ih seen, idsFrom, if_pos hm, dedupKeepFirstAux, if_pos hm]
    · rw [if_neg hm]
      dsimp only
      rw [ih (seen ++ [k]), idsFrom, if_neg hm, dedupKeepFirstAux, if_neg hm]
      simp [List.append_assoc]

theorem mem_seen_dedup :
    ∀ (lists seen : List (List (Int × String))) (k : List (Int × String)), k ∈ lists →
      k ∈ seen ++ dedupKeepFirstAux seen lists := by
  intro lists
  induction lists with
  | nil => intro seen k hk; cases hk
  | cons a t ih =>
    intro seen k hk
    by_cases hm : seen.contains a = true
    · rw [dedupKeepFirstAux, if_pos hm]
      rcases List.mem_cons.mp hk with he | ht
      · subst he
        exact List.mem_append.mpr (Or.inl ((contains_iff _ _).mp hm))
      · exact ih seen k ht
    · rw [dedupKeepFirstAux, if_neg hm]
      rcases List.mem_cons.mp hk with he | ht
      · subst he
        exact List.mem_append.mpr (Or.inr (List.mem_cons.mpr (Or.inl rfl)))
      · have := ih (seen ++ [a]) k ht
        rcases List.mem_append.mp this with h1 | h2
        · rcases List.mem_append.mp h1 with h3 | h4
          · exact List.mem_append.mpr (Or.inl h3)
          · rcases List.mem_cons.mp h4 with h5 | h6
            · exact List.mem_append.mpr (Or.inr (List.mem_cons.mpr (Or.inl h5)))
            · cases h6
        · exact List.mem_append.mpr (Or.inr (List.mem_cons.mpr (Or.inr h2)))

theorem idsFrom_eq :
    ∀ (lists seen : List (List (Int × String))),
    idsFrom seen lists =
      lists.map (fun k => 1 + idxOf1 k (seen ++ dedupKeepFirstAux seen lists)) := by
  intro lists
  induction lists with
  | nil => intro seen; rfl
  | cons a t ih =>
    intro seen
    by_cases hm : seen.contains a = true
    · rw [idsFrom, if_pos hm, dedupKeepFirstAux, if_pos hm, List.map_cons]
      have hidx : idxOf1 a (seen ++ dedupKeepFirstAux seen t) = idxOf1 a seen :=
        idxOf1_append_left a seen _ ((contains_iff _ _).mp hm)
      rw [hidx, ih seen]
    · rw [idsFrom, if_neg hm, dedupKeepFirstAux, if_neg hm, List.map_cons]
      have hidx : idxOf1 a (seen ++ a :: dedupKeepFirstAux (seen ++ [a]) t) = seen.length :=
        idxOf1_append_self a seen _ (fun hc => by rw [(contains_iff seen a).mpr hc] at hm; exact hm rfl)
      rw [hidx, ih (seen ++ [a])]
      have hassoc : (seen ++ [a]) ++ dedupKeepFirstAux (seen ++ [a]) t =
          seen ++ a :: dedupKeepFirstAux (seen ++ [a]) t := by
        simp [List.append_assoc]
      rw [hassoc]
      congr 1
      omega

end MdE1

namespace MdE1

theorem stOf_items (seen : List (List (Int × String))) :
    (stOf seen).overlays.map (fun o => o.items) = seen := by
  unfold stOf
  rw [List.map_map]
  have h : ((fun o : Overlay => o.items) ∘
      fun p : (List (Int × String)) × Nat => ({ oid := p.2, items := p.1 } : Overlay)) =
      Prod.fst := rfl
  rw [h]
  exact List.map_fst_zip _ _ (by simp)

theorem stOf_oids (seen : List (List (Int × String))) :
    (stOf seen).overlays.map (fun o => o.oid) = List.range' 1 seen.length := by
  unfold stOf
  rw [List.map_map]
  have h : ((fun o : Overlay => o.oid) ∘
      fun p : (List (Int × String)) × Nat => ({ oid := p.2, items := p.1 } : Overlay)) =
      Prod.snd := rfl
  rw [h]
  exact List.map_snd_zip _ _ (by simp)

/-- Claim C5:.  Overlay interning: over one conversion run, two choice
lists receive the same overlay id exactly when they are identical as
ordered `(value, label)` tuples; the overlays table holds the distinct
lists in order of first appearance, with ids assigned by a monotonic
counter starting at 1 (so a later identical list reuses the existing
id instead of creating a duplicate overlay). -/
theorem C5_overlay_interning (lists : List (List (Int × String))) (i j : Nat)
    (hi : i < lists.length) (hj : j < lists.length) :
    ((runOverlayIds overlayInit lists).1.getD i 0 = (runOverlayIds overlayInit lists).1.getD j 0 ↔
      lists.getD i [] = lists.getD j []) ∧
    (runOverlayIds overlayInit lists).2.overlays.map (fun o => o.items) =
      firstOccurrences lists ∧
    (runOverlayIds overlayInit lists).2.overlays.map (fun o => o.oid) =
      List.range' 1 (firstOccurrences lists).length := by
  have hrun : runOverlayIds overlayInit lists =
      (idsFrom [] lists, stOf ([] ++ dedupKeepFirstAux [] lists)) := runOverlayIds_stOf lists []
  rw [hrun]
  have hD : ([] ++ dedupKeepFirstAux [] lists) = firstOccurrences lists := rfl
  refine ⟨?_, by rw [hD]; exact stOf_items _, by rw [hD]; exact stOf_oids _⟩
  rw [idsFrom_eq]
  have hids : ∀ m : Nat, m < lists.length →
      (lists.map (fun k => 1 + idxOf1 k ([] ++ dedupKeepFirstAux [] lists))).getD m 0 =
        1 + idxOf1 (lists.getD m []) (firstOccurrences lists) := by
    intro m hm
    rw [List.getD_eq_getElem?_getD, List.getElem?_map, List.getElem?_eq_getElem hm,
      List.getD_eq_getElem?_getD, List.getElem?_eq_getElem hm]
    rfl
  rw [hids i hi, hids j hj]
  have hmemi : lists.getD i [] ∈ firstOccurrences lists := by
    rw [← hD]
    refine mem_seen_dedup lists [] _ ?_
    rw [List.getD_eq_getElem?_getD, List.getElem?_eq_getElem hi]
    exact List.getElem_mem hi
  have hmemj : lists.getD j [] ∈ firstOccurrences lists := by
    rw [← hD]
    refine mem_seen_dedup lists [] _ ?_
    rw [List.getD_eq_getElem?_getD, List.getElem?_eq_getElem hj]
    exact List.getElem_mem hj
  constructor
  · intro h
    exact idxOf1_inj _ _ _ hmemi hmemj (Nat.add_left_cancel h)
  · intro h
    rw [h]

end MdE1

namespace MdE1

/-- Witness for C5: in `c5lists` the third list repeats the first, so
they receive the same overlay id. -/
theorem C5_overlay_interning_witness :
    ((runOverlayIds overlayInit c5lists).1.getD 0 0 =
        (runOverlayIds overlayInit c5lists).1.getD 2 0 ↔
      c5lists.getD 0 [] = c5lists.getD 2 []) ∧
    (runOverlayIds overlayInit c5lists).2.overlays.map (fun o => o.items) =
      firstOccurrences c5lists ∧
    (runOverlayIds overlayInit c5lists).2.overlays.map (fun o => o.oid) =
      List.range' 1 (firstOccurrences c5lists).length :=
  C5_overlay_interning c5lists 0 2 (by decide) (by decide)

end MdE1

-- C3 support lemmas
namespace MdE1

theorem containsN_iff (l : List Nat) (k : Nat) : l.contains k = true ↔ k ∈ l := by
  simp [List.contains, List.elem_iff]

theorem foldl_nmin_le_init (t : List Nat) (a : Nat) : t.foldl min a ≤ a := by
  induction t generalizing a with
  | nil => exact Nat.le_refl a
  | cons b t ih => exact Nat.le_trans (ih (min a b)) (min_le_left a b)

theorem foldl_nmin_const (t : List Nat) (a : Nat) (h : ∀ x ∈ t, a ≤ x) :
    t.foldl min a = a := by
  induction t generalizing a with
  | nil => rfl
  | cons b t ih =>
    show t.foldl min (min a b) = a
    rw [min_eq_left (h b (List.mem_cons_self b t))]
    exact ih a (fun x hx => h x (List.mem_cons_of_mem b hx))

theorem foldl_nmin_le_mem (t : List Nat) (a x : Nat) (hx : x ∈ t) : t.foldl min a ≤ x := by
  induction t generalizing a with
  | nil => cases hx
  | cons b t ih =>
    rcases List.mem_cons.mp hx with h | h
    · subst h
      exact Nat.le_trans (foldl_nmin_le_init t (min a x)) (min_le_right a x)
    · exact ih (min a b) h

theorem natMinL_le (l : List Nat) (x : Nat) (hx : x ∈ l) : natMinL l ≤ x := by
  cases l with
  | nil => cases hx
  | cons a t =>
    rcases List.mem_cons.mp hx with h | h
    · subst h; exact foldl_nmin_le_init t x
    · exact foldl_nmin_le_mem t a x h

theorem init_le_foldl_nmax (t : List Nat) (a : Nat) : a ≤ t.foldl max a := by
  induction t generalizing a with
  | nil => exact Nat.le_refl a
  | cons b t ih => exact Nat.le_trans (le_max_left a b) (ih (max a b))

theorem mem_le_foldl_nmax (t : List Nat) (a x : Nat) (hx : x ∈ t) : x ≤ t.foldl max a := by
  induction t generalizing a with
  | nil => cases hx
  | cons b t ih =>
    rcases List.mem_cons.mp hx with h | h
    · subst h
      exact Nat.le_trans (le_max_right a x) (init_le_foldl_nmax t (max a x))
    · exact ih (max a b) h

theorem le_natMaxL (l : List Nat) (x : Nat) (hx : x ∈ l) : x ≤ natMaxL l := by
  cases l with
  | nil => cases hx
  | cons a t =>
    rcases List.mem_cons.mp hx with h | h
    · subst h; exact init_le_foldl_nmax t x
    · exact mem_le_foldl_nmax t a x h

theorem natMinL_cons_of_le (a : Nat) (t : List Nat) (h : ∀ x ∈ t, a ≤ x) :
    natMinL (a :: t) = a := foldl_nmin_const t a h

theorem natMaxL_cons_cons (a b : Nat) (t : List Nat) (h : a ≤ b) :
    natMaxL (a :: b :: t) = natMaxL (b :: t) := by
  show t.foldl max (max a b) = t.foldl max b
  rw [max_eq_right h]

theorem natMinL_range' (a n : Nat) : natMinL (List.range' a (n + 1)) = a := by
  rw [List.range'_succ]
  refine natMinL_cons_of_le a _ ?_
  intro x hx
  rcases List.mem_range'_1.mp hx with ⟨h1, -⟩
  omega

theorem natMaxL_range' : ∀ (n a : Nat), natMaxL (List.range' a (n + 1)) = a + n := by
  intro n
  induction n with
  | zero => intro a; rfl
  | succ m ih =>
    intro a
    rw [List.range'_succ, List.range'_succ, natMaxL_cons_cons a (a + 1) _ (Nat.le_succ a),
      ← List.range'_succ, ih (a + 1)]
    omega

theorem consecSucc_eq_range' : ∀ (t : List Nat) (a : Nat),
    consecSucc (a :: t) = true → a :: t = List.range' a (t.length + 1) := by
  intro t
  induction t with
  | nil => intro a _; rfl
  | cons b t' ih =>
    intro a h
    rw [consecSucc] at h
    simp only [Bool.and_eq_true, beq_iff_eq] at h
    obtain ⟨hab, hrec⟩ := h
    rw [List.range'_succ, hab]
    rw [show (b :: t').length = t'.length + 1 from rfl, ← ih b hrec]

end MdE1

namespace MdE1

theorem rangeSetEq_of_consec (a : Nat) (t : List Nat) (h : consecSucc (a :: t) = true) :
    rangeSetEq (a :: t) = true := by
  have heq := consecSucc_eq_range' t a h
  unfold rangeSetEq
  rw [heq, natMinL_range', natMaxL_range']
  show ((List.range' a (a + t.length + 1 - a)).all
      (fun i => (List.range' a (t.length + 1)).contains i) &&
    (List.range' a (t.length + 1)).all
      (fun i => (List.range' a (a + t.length + 1 - a)).contains i)) = true
  rw [show a + t.length + 1 - a = t.length + 1 by omega]
  rw [Bool.and_eq_true]
  constructor <;>
    exact List.all_eq_true.mpr (fun i hi => (containsN_iff _ _).mpr hi)

theorem consec_noGap (l : List Nat) (hne : l ≠ []) (h : consecSucc l = true) :
    NoIndexGap l := by
  cases l with
  | nil => cases hne rfl
  | cons a t =>
    have heq := consecSucc_eq_range' t a h
    intro k h1 h2
    rw [heq] at h1 h2 ⊢
    rw [natMinL_range'] at h1
    rw [natMaxL_range'] at h2
    exact List.mem_range'_1.mpr ⟨h1, by omega⟩

theorem noGap_consec : ∀ (l : List Nat), l.Pairwise (· < ·) → NoIndexGap l →
    consecSucc l = true := by
  intro l
  induction l with
  | nil => intro _ _; rfl
  | cons a t ih =>
    intro hp hgap
    cases t with
    | nil => rfl
    | cons b t' =>
      have hab : a < b := (List.pairwise_cons.mp hp).1 b (List.mem_cons_self _ _)
      have hall : ∀ x ∈ b :: t', a ≤ x := by
        intro x hx
        exact Nat.le_of_lt ((List.pairwise_cons.mp hp).1 x hx)
      have hmin : natMinL (a :: b :: t') = a := natMinL_cons_of_le a _ hall
      have hmaxeq : natMaxL (a :: b :: t') = natMaxL (b :: t') :=
        natMaxL_cons_cons a b t' (Nat.le_of_lt hab)
      have hmax_ge : b ≤ natMaxL (a :: b :: t') :=
        le_natMaxL _ b (List.mem_cons_of_mem a (List.mem_cons_self b t'))
      have hsucc_mem : a + 1 ∈ a :: b :: t' :=
        hgap (a + 1) (by omega) (by omega)
      have hp' : (b :: t').Pairwise (· < ·) := (List.pairwise_cons.mp hp).2
      have hb : b = a + 1 := by
        rcases List.mem_cons.mp hsucc_mem with h1 | h2
        · omega
        · rcases List.mem_cons.mp h2 with h3 | h4
          · omega
          · have : b < a + 1 := (List.pairwise_cons.mp hp').1 _ h4
            omega
      have hminbt : natMinL (b :: t') = b := by
        refine natMinL_cons_of_le b _ ?_
        intro x hx
        exact Nat.le_of_lt ((List.pairwise_cons.mp hp').1 x hx)
      have hgap' : NoIndexGap (b :: t') := by
        intro k h1 h2
        rw [hminbt] at h1
        have hk : k ∈ a :: b :: t' := hgap k (by omega) (by omega)
        rcases List.mem_cons.mp hk with h3 | h4
        · omega
        · exact h4
      rw [consecSucc]
      simp only [Bool.and_eq_true, beq_iff_eq]
      exact ⟨hb.symm, ih hp' hgap'⟩

end MdE1

namespace MdE1

theorem insertNat_perm (a : Nat) (l : List Nat) : List.Perm (insertNat a l) (a :: l) := by
  induction l with
  | nil => exact List.Perm.refl _
  | cons b t ih =>
    unfold insertNat
    split
    · exact List.Perm.refl _
    · exact (ih.cons b).trans (List.Perm.swap a b t)

theorem sortNat_perm (l : List Nat) : List.Perm (sortNat l) l := by
  induction l with
  | nil => exact List.Perm.refl _
  | cons a t ih => exact (insertNat_perm a (sortNat t)).trans (ih.cons a)

theorem insertNat_sorted (a : Nat) (l : List Nat) (h : l.Sorted (· ≤ ·)) :
    (insertNat a l).Sorted (· ≤ ·) := by
  induction l with
  | nil => simp [insertNat]
  | cons b t ih =>
    unfold insertNat
    split
    · rename_i hab
      rw [List.sorted_cons]
      refine ⟨?_, h⟩
      intro x hx
      rcases List.mem_cons.mp hx with h1 | h2
      · omega
      · exact Nat.le_trans hab ((List.sorted_cons.mp h).1 x h2)
    · rename_i hab
      rw [List.sorted_cons]
      constructor
      · intro x hx
        have hx2 := (insertNat_perm a t).mem_iff.mp hx
        rcases List.mem_cons.mp hx2 with h1 | h2
        · omega
        · exact (List.sorted_cons.mp h).1 x h2
      · exact ih (List.sorted_cons.mp h).2

theorem sortNat_sorted (l : List Nat) : (sortNat l).Sorted (· ≤ ·) := by
  induction l with
  | nil => simp [sortNat]
  | cons a t ih => exact insertNat_sorted a (sortNat t) ih

theorem insertByX_perm (a : Nat × Bounds) (l : List (Nat × Bounds)) :
    List.Perm (insertByX a l) (a :: l) := by
  induction l with
  | nil => exact List.Perm.refl _
  | cons b t ih =>
    unfold insertByX
    split
    · exact List.Perm.refl _
    · exact (ih.cons b).trans (List.Perm.swap a b t)

theorem sortByX_perm (l : List (Nat × Bounds)) : List.Perm (sortByX l) l := by
  induction l with
  | nil => exact List.Perm.refl _
  | cons a t ih => exact (insertByX_perm a (sortByX t)).trans (ih.cons a)

theorem matchingIdx_pairwise (g : Bounds) (ctrls : List Bounds) :
    ((matchingCtrls g ctrls).map Prod.fst).Pairwise (· < ·) := by
  unfold matchingCtrls
  have hsub : List.Sublist ((ctrls.enum.filter (fun p => matchesGroup g p.2)).map Prod.fst)
      (ctrls.enum.map Prod.fst) :=
    (List.filter_sublist _).map _
  rw [List.enum_map_fst] at hsub
  exact List.Pairwise.sublist hsub (List.pairwise_lt_range _)

end MdE1

namespace MdE1

theorem spanDecision_char (ctrls : List Bounds) (M : List (Nat × Bounds))
    (hne : M ≠ []) (hpw : (M.map (fun p => p.1)).Pairwise (· < ·)) :
    (spanDecision ctrls M = true ↔
      AllTopRow M ∧ NoIndexGap (M.map (fun p => p.1))) := by
  simp only [spanDecision]
  by_cases htop : AllTopRow M
  · have hfilter : M.filter (fun p => p.2.y == listMinI (M.map (fun q => q.2.y))) = M :=
      List.filter_eq_self.mpr (fun p hp => beq_iff_eq.mpr (htop p hp))
    rw [hfilter]
    have hlen' : ((sortByX M).map (fun p => p.1)).length = M.length := by
      rw [List.length_map, (sortByX_perm M).length_eq]
    have hsorted_eq : sortNat ((sortByX M).map (fun p => p.1)) = M.map (fun p => p.1) := by
      refine List.eq_of_perm_of_sorted
        ((sortNat_perm _).trans ((sortByX_perm M).map _)) (sortNat_sorted _) ?_
      exact hpw.imp (fun h => Nat.le_of_lt h)
    rw [hlen', hsorted_eq]
    rw [beq_self_eq_true, decide_eq_true (List.length_pos.mpr hne)]
    simp only [Bool.true_and, Bool.and_true, if_true]
    by_cases hc : consecSucc (M.map (fun p => p.1)) = true
    · rw [hc]
      have hrse : rangeSetEq (M.map (fun p => p.1)) = true := by
        cases hI : M.map (fun p => p.1) with
        | nil =>
          exact absurd (List.map_eq_nil_iff.mp hI) hne
        | cons i0 irest =>
          exact rangeSetEq_of_consec i0 irest (hI ▸ hc)
      have hgap : NoIndexGap (M.map (fun p => p.1)) := by
        refine consec_noGap _ ?_ hc
        intro hnil
        exact hne (List.map_eq_nil_iff.mp hnil)
      constructor
      · intro _; exact ⟨htop, hgap⟩
      · intro _
        by_cases heq : ((M.map (fun p => p.1)) == (ctrls.enum.filter
            (fun p => p.2.y == listMinI (M.map (fun q => q.2.y)))).map (fun p => p.1)) = true
        · rw [Bool.true_and, heq, if_pos rfl]
        · rw [Bool.true_and, if_neg heq, if_pos rfl, hrse]
    · rw [Bool.not_eq_true] at hc
      rw [hc]
      simp only [Bool.false_and, Bool.and_false, if_false, ite_self]
      constructor
      · intro h; cases h
      · rintro ⟨-, hgap⟩
        have := noGap_consec _ hpw hgap
        rw [hc] at this
        cases this
  · have hTRlen : ((sortByX (M.filter (fun p => p.2.y ==
        listMinI (M.map (fun q => q.2.y))))).map (fun p => p.1)).length =
        (M.filter (fun p => p.2.y == listMinI (M.map (fun q => q.2.y)))).length := by
      rw [List.length_map, (sortByX_perm _).length_eq]
    have hne2 : (M.length == ((sortByX (M.filter (fun p => p.2.y ==
        listMinI (M.map (fun q => q.2.y))))).map (fun p => p.1)).length) = false := by
      rw [beq_eq_false_iff_ne, hTRlen]
      intro hcontra
      apply htop
      intro p hp
      have hfe : M.filter (fun p => p.2.y == listMinI (M.map (fun q => q.2.y))) = M :=
        (List.filter_sublist M).eq_of_length hcontra.symm
      exact beq_iff_eq.mp (List.filter_eq_self.mp hfe p hp)
    rw [hne2]
    simp only [Bool.false_and, Bool.and_false, if_false]
    constructor
    · intro h; cases h
    · rintro ⟨ht, -⟩
      exact absurd ht htop

end MdE1

namespace MdE1

/-! ### C3: compact-span re-encoding -/

/-- Claim C3: (amended).  For a nonempty geometric candidate set, the
inverse conversion re-encodes a group as a compact span (count = the
number of candidates, no per-control tags) exactly when every
candidate lies in the top row and the candidate indices are
consecutive in the page ordering (no position between the first and
last candidate index is occupied by a non-candidate); any violation
yields the explicit-tag encoding of all candidates.  A group whose
members are the first N placements on a page round-trips to a
span-count group (`c3apreset`: span 2); but membership is inferred
geometrically, so a non-member interrupting the members is itself a
candidate — see the counterexample. -/
theorem C3_span_reencoding :
    (∀ (ctrls : List Bounds) (g : Bounds), matchingCtrls g ctrls ≠ [] →
      ((encodeGroup ctrls g = some (GroupEnc.span (matchingCtrls g ctrls).length) ↔
        AllTopRow (matchingCtrls g ctrls) ∧
        NoIndexGap ((matchingCtrls g ctrls).map (fun p => p.1))) ∧
       (¬ (AllTopRow (matchingCtrls g ctrls) ∧
          NoIndexGap ((matchingCtrls g ctrls).map (fun p => p.1))) →
        encodeGroup ctrls g =
          some (GroupEnc.explicitTags ((matchingCtrls g ctrls).map (fun p => p.1)))))) ∧
    c3arun.2.1.group_controls = [((1, "G"), [1, 2])] ∧
    c3apreset.groups.map (fun gr => gr.bounds) = [{ x := 14, y := 6, w := 325, h := 16 }] ∧
    encodeGroup (pageBoundsOf c3apreset 1) { x := 14, y := 6, w := 325, h := 16 } =
      some (GroupEnc.span 2) := by
  refine ⟨?_, by decide, by decide, by decide⟩
  intro ctrls g hne
  have hchar := spanDecision_char ctrls (matchingCtrls g ctrls) hne (matchingIdx_pairwise g ctrls)
  have hemp : ¬ (matchingCtrls g ctrls).isEmpty = true := by
    rw [List.isEmpty_iff]; exact hne
  unfold encodeGroup
  rw [if_neg hemp]
  by_cases hd : spanDecision ctrls (matchingCtrls g ctrls) = true
  · have hcond := hchar.mp hd
    have hfilter : (matchingCtrls g ctrls).filter
        (fun p => p.2.y == listMinI ((matchingCtrls g ctrls).map (fun q => q.2.y))) =
        matchingCtrls g ctrls :=
      List.filter_eq_self.mpr (fun p hp => beq_iff_eq.mpr (hcond.1 p hp))
    have hlen : ((sortByX ((matchingCtrls g ctrls).filter
        (fun p => p.2.y == listMinI ((matchingCtrls g ctrls).map (fun q => q.2.y))))).map
        (fun p => p.1)).length = (matchingCtrls g ctrls).length := by
      rw [hfilter, List.length_map, (sortByX_perm _).length_eq]
    rw [if_pos hd]
    constructor
    · constructor
      · intro _; exact hcond
      · intro _
        rw [hlen]
    · intro hcontra; exact absurd hcond hcontra
  · rw [if_neg hd]
    constructor
    · constructor
      · intro habs
        simp only [Option.some.injEq] at habs
        cases habs
      · intro hcond; exact absurd (hchar.mpr hcond) hd
    · intro _; rfl

/-- Witness for C3 at the scenario-1 preset: the span condition holds
for its group box and the encoding is the compact span. -/
theorem C3_span_reencoding_witness :
    (encodeGroup (pageBoundsOf c3apreset 1) { x := 14, y := 6, w := 325, h := 16 } =
        some (GroupEnc.span (matchingCtrls { x := 14, y := 6, w := 325, h := 16 }
          (pageBoundsOf c3apreset 1)).length) ↔
      AllTopRow (matchingCtrls { x := 14, y := 6, w := 325, h := 16 }
          (pageBoundsOf c3apreset 1)) ∧
      NoIndexGap ((matchingCtrls { x := 14, y := 6, w := 325, h := 16 }
          (pageBoundsOf c3apreset 1)).map (fun p => p.1))) ∧
    (¬ (AllTopRow (matchingCtrls { x := 14, y := 6, w := 325, h := 16 }
          (pageBoundsOf c3apreset 1)) ∧
        NoIndexGap ((matchingCtrls { x := 14, y := 6, w := 325, h := 16 }
          (pageBoundsOf c3apreset 1)).map (fun p => p.1))) →
      encodeGroup (pageBoundsOf c3apreset 1) { x := 14, y := 6, w := 325, h := 16 } =
        some (GroupEnc.explicitTags ((matchingCtrls { x := 14, y := 6, w := 325, h := 16 }
          (pageBoundsOf c3apreset 1)).map (fun p => p.1)))) :=
  C3_span_reencoding.1 (pageBoundsOf c3apreset 1) { x := 14, y := 6, w := 325, h := 16 }
    (by decide)

/-- Claim C3: counterexample.  In `c3bspecs`, the group's recorded
members are controls 1 and 3, interrupted by non-member control 2 in
the same row; the claim says this round-trips to explicit-tag form,
but the inverse conversion absorbs the interloper as a geometric
candidate and re-encodes the group as a compact span of 3. -/
theorem C3_counterexample :
    c3brun.2.1.group_controls = [((1, "G"), [1, 3])] ∧
    c3bpreset.controls.map (fun c => (c.cid, c.bounds)) =
      [(1, { x := 20, y := 28, w := 146, h := 56 }),
       (2, { x := 187, y := 28, w := 146, h := 56 }),
       (3, { x := 354, y := 28, w := 146, h := 56 })] ∧
    c3bpreset.groups.map (fun gr => gr.bounds) = [{ x := 14, y := 6, w := 492, h := 16 }] ∧
    encodeGroup (pageBoundsOf c3bpreset 1) { x := 14, y := 6, w := 492, h := 16 } =
      some (GroupEnc.span 3) := by decide

end MdE1
